/-
Verification of the matching-engine client/relay protocol stack.

The development shallowly embeds the TypeScript sources:
  * protocol/types.ts        — message unions, enums, validators
  * protocol/binary-codec.ts — fixed-layout big-endian binary codec
  * protocol/csv-codec.ts    — newline-terminated CSV codec
  * protocol/codec.ts        — codec router with auto-detection and batching
  * relay/tcp-relay.ts       — length-prefixed frame reassembly, client table
  * relay/multicast-relay.ts — sequence-gap tracking
  * transport/websocket-client.ts    — reconnect backoff state machine
  * transport/connection-manager.ts  — outbound queueing and flushing

Bytes are modelled as `Nat` (each in 0..255 where produced by the code),
JavaScript numbers holding integers as `Int`/`Nat`, and JavaScript numbers
holding prices as `ℚ`.  `TextEncoder`/`TextDecoder` are modelled as the
code-point embedding of characters into bytes, which is exact on the ASCII
range used by the CSV wire format.
-/
import Mathlib

set_option maxRecDepth 100000

namespace Protocol

/-- Side enum from types.ts (BUY = 1, SELL = 2). -/
inductive Side where
  | buy
  | sell
  deriving DecidableEq, Repr

/-- AckStatus enum from types.ts (ACCEPTED = 0, PARTIAL_FILL = 1, FILLED = 2). -/
inductive AckStatus where
  | accepted
  | partialFill
  | filled
  deriving DecidableEq, Repr

/-- Input messages (client → engine) from types.ts. -/
inductive InputMessage where
  | newOrder (symbol : String) (userId : Int) (userOrderId : Int)
      (side : Side) (price : ℚ) (quantity : Int)
  | cancel (symbol : String) (userId : Int) (userOrderId : Int)
  | flush (userId : Int)
  deriving DecidableEq, Repr

/-- Output messages (engine → client) from types.ts. -/
inductive OutputMessage where
  | ack (symbol : String) (userOrderId : Int) (status : AckStatus)
  | reject (symbol : String) (userOrderId : Int) (reason : Int)
  | trade (symbol : String) (price : ℚ) (quantity : Int)
      (buyOrderId : Int) (sellOrderId : Int)
  | cancelAck (symbol : String) (userOrderId : Int)
  | topOfBook (symbol : String) (bidPrice : ℚ) (askPrice : ℚ)
      (bidQuantity : Int) (askQuantity : Int)
  deriving DecidableEq, Repr

/-- Wire codec identifiers from types.ts. -/
inductive Codec where
  | csv
  | binary
  | unknown
  deriving DecidableEq, Repr

def BINARY_MESSAGE_SIZE : Nat := 64
def SYMBOL_SIZE : Nat := 8
def MAX_SYMBOL_LENGTH : Nat := 8
def MAX_CSV_MESSAGE_LENGTH : Nat := 256

/-- Symbol validator from types.ts: non-empty and at most 8 characters. -/
def isValidSymbol (symbol : String) : Bool :=
  if symbol.length = 0 then false
  else if symbol.length > MAX_SYMBOL_LENGTH then false
  else true

/-- Price validator from types.ts: finite and non-negative (finiteness holds by type). -/
def isValidPrice (price : ℚ) : Bool :=
  if price < 0 then false else true

/-- Quantity validator from types.ts: a positive integer (integrality holds by type). -/
def isValidQuantity (quantity : Int) : Bool :=
  if quantity ≤ 0 then false else true

/-- User-id validator from types.ts: a non-negative integer. -/
def isValidUserId (userId : Int) : Bool :=
  if userId < 0 then false else true

/-- Order-id validator from types.ts: a non-negative integer. -/
def isValidOrderId (orderId : Int) : Bool :=
  if orderId < 0 then false else true

end Protocol

namespace BinaryCodec

open Protocol

def MAGIC : Nat := 0x4d
def HEADER_SIZE : Nat := 2

def MSG_NEW_ORDER : Nat := 0x4e
def MSG_CANCEL : Nat := 0x43
def MSG_FLUSH : Nat := 0x46
def MSG_ACK : Nat := 0x41
def MSG_CANCEL_ACK : Nat := 0x58
def MSG_TRADE : Nat := 0x54
def MSG_TOP_OF_BOOK : Nat := 0x42
def MSG_REJECT : Nat := 0x52

def NEW_ORDER_WIRE_SIZE : Nat := 27
def CANCEL_WIRE_SIZE : Nat := 18
def FLUSH_WIRE_SIZE : Nat := 2
def ACK_WIRE_SIZE : Nat := 18
def CANCEL_ACK_WIRE_SIZE : Nat := 18
def TRADE_WIRE_SIZE : Nat := 34
def TOP_OF_BOOK_WIRE_SIZE : Nat := 20
def REJECT_WIRE_SIZE : Nat := 19

def SIDE_BUY : Nat := 0x42
def SIDE_SELL : Nat := 0x53

/-- Encode result mirroring binary-codec.ts (data as a byte list). -/
structure EncodeResult where
  success : Bool
  data : List Nat
  error : Option String
  deriving DecidableEq, Repr

/-- Decode result mirroring binary-codec.ts. -/
structure DecodeResult where
  success : Bool
  message : Option OutputMessage
  bytesConsumed : Nat
  error : Option String
  deriving DecidableEq, Repr

/-- Big-endian 4-byte encoding of a 32-bit value (DataView.setUint32 with
a value already reduced mod 2^32). -/
def u32be (n : Nat) : List Nat :=
  [n / 16777216 % 256, n / 65536 % 256, n / 256 % 256, n % 256]

/-- writeU32Big from binary-codec.ts: setUint32 coerces with ToUint32,
so the value is reduced mod 2^32 (inputs are validated non-negative). -/
def writeU32Big (value : Int) : List Nat :=
  u32be (value.toNat % 4294967296)

/-- readU32Big from binary-codec.ts: big-endian read of 4 bytes at `off`. -/
def readU32Big (data : List Nat) (off : Nat) : Nat :=
  data.getD off 0 * 16777216 + data.getD (off + 1) 0 * 65536 +
    data.getD (off + 2) 0 * 256 + data.getD (off + 3) 0

/-- writeSymbol from binary-codec.ts: 8-byte slot, left-justified,
zero-padded (charCodeAt modelled as the code point). -/
def writeSymbol (symbol : String) : List Nat :=
  let cs := symbol.data.map Char.toNat
  cs.take SYMBOL_SIZE ++ List.replicate (SYMBOL_SIZE - cs.length) 0

/-- readSymbol from binary-codec.ts: read up to 8 bytes, stopping at the
first zero byte (String.fromCharCode modelled as the code point). -/
def readSymbol (data : List Nat) (off : Nat) : String :=
  String.mk ((((data.drop off).take SYMBOL_SIZE).takeWhile (· ≠ 0)).map Char.ofNat)

/-- sideToWire from binary-codec.ts. -/
def sideToWire (side : Side) : Nat :=
  match side with
  | .buy => SIDE_BUY
  | .sell => SIDE_SELL

/-- encodeNewOrder from binary-codec.ts (27-byte layout). -/
def encodeNewOrder (symbol : String) (userId : Int) (userOrderId : Int)
    (side : Side) (price : ℚ) (quantity : Int) : EncodeResult :=
  if ¬ isValidSymbol symbol then ⟨false, [], some "Invalid symbol"⟩
  else if ¬ isValidUserId userId then ⟨false, [], some "Invalid user ID"⟩
  else if ¬ isValidOrderId userOrderId then ⟨false, [], some "Invalid order ID"⟩
  else if ¬ isValidPrice price then ⟨false, [], some "Invalid price"⟩
  else if ¬ isValidQuantity quantity then ⟨false, [], some "Invalid quantity"⟩
  else
    ⟨true,
      [MAGIC, MSG_NEW_ORDER] ++ writeU32Big userId ++ writeSymbol symbol ++
        writeU32Big ⌊price * 100 + 1/2⌋ ++ writeU32Big quantity ++
        [sideToWire side] ++ writeU32Big userOrderId,
      none⟩

/-- encodeCancel from binary-codec.ts (18-byte layout). -/
def encodeCancel (symbol : String) (userId : Int) (userOrderId : Int) : EncodeResult :=
  if ¬ isValidSymbol symbol then ⟨false, [], some "Invalid symbol"⟩
  else if ¬ isValidUserId userId then ⟨false, [], some "Invalid user ID"⟩
  else if ¬ isValidOrderId userOrderId then ⟨false, [], some "Invalid order ID"⟩
  else
    ⟨true,
      [MAGIC, MSG_CANCEL] ++ writeU32Big userId ++ writeSymbol symbol ++
        writeU32Big userOrderId,
      none⟩

/-- encodeFlush from binary-codec.ts (2-byte layout). -/
def encodeFlush : EncodeResult :=
  ⟨true, [MAGIC, MSG_FLUSH], none⟩

/-- encode from binary-codec.ts. -/
def encode (msg : InputMessage) : EncodeResult :=
  match msg with
  | .newOrder symbol userId userOrderId side price quantity =>
      encodeNewOrder symbol userId userOrderId side price quantity
  | .cancel symbol userId userOrderId => encodeCancel symbol userId userOrderId
  | .flush _ => encodeFlush

/-- decodeAck from binary-codec.ts: the status field is not read from the
wire; the message is built with AckStatus.ACCEPTED. -/
def decodeAck (data : List Nat) : DecodeResult :=
  let symbol := readSymbol data HEADER_SIZE
  let _userId := readU32Big data (HEADER_SIZE + SYMBOL_SIZE)
  let userOrderId := readU32Big data (HEADER_SIZE + SYMBOL_SIZE + 4)
  ⟨true, some (.ack symbol userOrderId .accepted), ACK_WIRE_SIZE, none⟩

/-- decodeTrade from binary-codec.ts. -/
def decodeTrade (data : List Nat) : DecodeResult :=
  let symbol := readSymbol data HEADER_SIZE
  let _buyUserId := readU32Big data 10
  let buyOrderId := readU32Big data 14
  let _sellUserId := readU32Big data 18
  let sellOrderId := readU32Big data 22
  let priceRaw := readU32Big data 26
  let quantity := readU32Big data 30
  ⟨true,
    some (.trade symbol ((priceRaw : ℚ) / 100) quantity buyOrderId sellOrderId),
    TRADE_WIRE_SIZE, none⟩

/-- decodeReject from binary-codec.ts. -/
def decodeReject (data : List Nat) : DecodeResult :=
  let symbol := readSymbol data HEADER_SIZE
  let _userId := readU32Big data 10
  let userOrderId := readU32Big data 14
  let reason := data.getD 18 0
  ⟨true, some (.reject symbol userOrderId reason), REJECT_WIRE_SIZE, none⟩

/-- decodeCancelAck from binary-codec.ts. -/
def decodeCancelAck (data : List Nat) : DecodeResult :=
  let symbol := readSymbol data HEADER_SIZE
  let _userId := readU32Big data 10
  let userOrderId := readU32Big data 14
  ⟨true, some (.cancelAck symbol userOrderId), CANCEL_ACK_WIRE_SIZE, none⟩

/-- decodeTopOfBook from binary-codec.ts: one-sided book update with a
side byte; invalid side bytes are a decode error. -/
def decodeTopOfBook (data : List Nat) : DecodeResult :=
  let symbol := readSymbol data HEADER_SIZE
  let sideByte := data.getD 10 0
  if sideByte = SIDE_BUY then
    let priceRaw := readU32Big data 11
    let quantity := readU32Big data 15
    ⟨true,
      some (.topOfBook symbol ((priceRaw : ℚ) / 100) 0 quantity 0),
      TOP_OF_BOOK_WIRE_SIZE, none⟩
  else if sideByte = SIDE_SELL then
    let priceRaw := readU32Big data 11
    let quantity := readU32Big data 15
    ⟨true,
      some (.topOfBook symbol 0 ((priceRaw : ℚ) / 100) 0 quantity),
      TOP_OF_BOOK_WIRE_SIZE, none⟩
  else ⟨false, none, 0, some "Invalid side"⟩

/-- decode from binary-codec.ts: dispatch on magic byte and type byte;
only output message types are decodable. -/
def decode (data : List Nat) : DecodeResult :=
  if data.length < HEADER_SIZE then ⟨false, none, 0, some "Message too short"⟩
  else if data.getD 0 0 ≠ MAGIC then ⟨false, none, 0, some "Invalid magic byte"⟩
  else
    let msgType := data.getD 1 0
    if msgType = MSG_ACK then
      if data.length < ACK_WIRE_SIZE then ⟨false, none, 0, some "Incomplete ACK"⟩
      else decodeAck data
    else if msgType = MSG_TRADE then
      if data.length < TRADE_WIRE_SIZE then ⟨false, none, 0, some "Incomplete TRADE"⟩
      else decodeTrade data
    else if msgType = MSG_REJECT then
      if data.length < REJECT_WIRE_SIZE then ⟨false, none, 0, some "Incomplete REJECT"⟩
      else decodeReject data
    else if msgType = MSG_CANCEL_ACK then
      if data.length < CANCEL_ACK_WIRE_SIZE then
        ⟨false, none, 0, some "Incomplete CANCEL_ACK"⟩
      else decodeCancelAck data
    else if msgType = MSG_TOP_OF_BOOK then
      if data.length < TOP_OF_BOOK_WIRE_SIZE then
        ⟨false, none, 0, some "Incomplete TOP_OF_BOOK"⟩
      else decodeTopOfBook data
    else
      ⟨false, none, 0,
        some ("Unknown message type: 0x" ++ String.mk (Nat.toDigits 16 msgType))⟩

/-- isBinaryMessage from binary-codec.ts. -/
def isBinaryMessage (firstByte : Nat) : Bool :=
  firstByte = MAGIC

end BinaryCodec

namespace CsvCodec

open Protocol

def MAX_CSV_FIELDS : Nat := 8

/-- Encode result mirroring csv-codec.ts (data as a string). -/
structure EncodeResult where
  success : Bool
  data : String
  error : Option String
  deriving DecidableEq, Repr

/-- Decode result mirroring csv-codec.ts. -/
structure DecodeResult where
  success : Bool
  message : Option OutputMessage
  error : Option String
  deriving DecidableEq, Repr

/-- sideToChar from csv-codec.ts; the invalid-side branch is unreachable
because the Side type only holds the two valid values. -/
def sideToChar (side : Side) : Char :=
  match side with
  | .buy => 'B'
  | .sell => 'S'

/-- Number-to-string for CSV fields.  Abstracts JavaScript number
formatting: exact for integers; a non-integral rational is rendered as a
slash-separated fraction (no field separators or newlines appear). -/
def numToString (q : ℚ) : String :=
  if q.den = 1 then toString q.num
  else toString q.num ++ "/" ++ toString q.den

/-- encodeNewOrder from csv-codec.ts. -/
def encodeNewOrder (symbol : String) (userId : Int) (userOrderId : Int)
    (side : Side) (price : ℚ) (quantity : Int) : EncodeResult :=
  if ¬ isValidSymbol symbol then ⟨false, "", some "Invalid symbol"⟩
  else if ¬ isValidUserId userId then ⟨false, "", some "Invalid user ID"⟩
  else if ¬ isValidOrderId userOrderId then ⟨false, "", some "Invalid order ID"⟩
  else if ¬ isValidPrice price then ⟨false, "", some "Invalid price"⟩
  else if ¬ isValidQuantity quantity then ⟨false, "", some "Invalid quantity"⟩
  else
    ⟨true,
      "N" ++ "," ++ symbol ++ "," ++ toString userId ++ "," ++
        toString userOrderId ++ "," ++ String.singleton (sideToChar side) ++ "," ++
        numToString price ++ "," ++ toString quantity ++ "\n",
      none⟩

/-- encodeCancel from csv-codec.ts. -/
def encodeCancel (symbol : String) (userId : Int) (userOrderId : Int) : EncodeResult :=
  if ¬ isValidSymbol symbol then ⟨false, "", some "Invalid symbol"⟩
  else if ¬ isValidUserId userId then ⟨false, "", some "Invalid user ID"⟩
  else if ¬ isValidOrderId userOrderId then ⟨false, "", some "Invalid order ID"⟩
  else
    ⟨true,
      "C" ++ "," ++ symbol ++ "," ++ toString userId ++ "," ++
        toString userOrderId ++ "\n",
      none⟩

/-- encode from csv-codec.ts; FLUSH has no CSV representation. -/
def encode (msg : InputMessage) : EncodeResult :=
  match msg with
  | .newOrder symbol userId userOrderId side price quantity =>
      encodeNewOrder symbol userId userOrderId side price quantity
  | .cancel symbol userId userOrderId => encodeCancel symbol userId userOrderId
  | .flush _ => ⟨false, "", some "FLUSH not supported in CSV"⟩

/-- Whitespace trim used on each CSV field (String.prototype.trim). -/
def trimField (cs : List Char) : List Char :=
  ((cs.dropWhile Char.isWhitespace).reverse.dropWhile Char.isWhitespace).reverse

/-- Loop body of splitFields from csv-codec.ts: walk the characters,
completing a field at each separator, at a newline (stop) or at the end
(stop); refuse once a ninth field would be recorded.  `cur` holds the
current field's characters in reverse. -/
def goSplit (rest : List Char) (cur : List Char) (acc : List (List Char)) :
    Option (List (List Char)) :=
  if acc.length ≥ MAX_CSV_FIELDS then none
  else
    match rest with
    | [] => some (acc ++ [trimField cur.reverse])
    | c :: rs =>
      if c = ',' then goSplit rs [] (acc ++ [trimField cur.reverse])
      else if c = '\n' then some (acc ++ [trimField cur.reverse])
      else goSplit rs (c :: cur) acc

/-- splitFields from csv-codec.ts: the loop runs to
min(length, MAX_CSV_MESSAGE_LENGTH). -/
def splitFields (line : List Char) : Option (List (List Char)) :=
  goSplit (line.take MAX_CSV_MESSAGE_LENGTH) [] []

/-- Digit-run value for parseInt/parseFloat: the leading decimal digits,
or none when there is no digit. -/
def digitsVal (cs : List Char) : Option Nat :=
  let ds := cs.takeWhile Char.isDigit
  if ds = [] then none
  else some (ds.foldl (fun acc c => acc * 10 + (c.toNat - 48)) 0)

/-- parseInt(value, 10) semantics: optional sign then leading digits;
trailing non-digits are ignored; no digits means NaN (none). -/
def jsParseInt (cs : List Char) : Option Int :=
  let cs := cs.dropWhile Char.isWhitespace
  match cs with
  | '-' :: rs => (digitsVal rs).map (fun n => -(n : Int))
  | '+' :: rs => (digitsVal rs).map (fun n => (n : Int))
  | _ => (digitsVal cs).map (fun n => (n : Int))

/-- parseIntField from csv-codec.ts. -/
def parseIntField (value : String) : Option Int :=
  if value.length = 0 then none
  else jsParseInt value.data

/-- Mantissa of parseFloat: optional integer digits, optional fraction
digits; at least one digit overall. -/
def floatMantissa (cs : List Char) : Option (ℚ × List Char) :=
  let intDs := cs.takeWhile Char.isDigit
  let rest := cs.dropWhile Char.isDigit
  match rest with
  | '.' :: rs =>
    let fracDs := rs.takeWhile Char.isDigit
    let rest2 := rs.dropWhile Char.isDigit
    if intDs = [] ∧ fracDs = [] then none
    else
      let intVal : ℚ := intDs.foldl (fun acc c => acc * 10 + (c.toNat - 48 : ℚ)) 0
      let fracVal : ℚ := fracDs.foldl (fun acc c => acc * 10 + (c.toNat - 48 : ℚ)) 0
      some (intVal + fracVal / 10 ^ fracDs.length, rest2)
  | _ =>
    if intDs = [] then none
    else some (intDs.foldl (fun acc c => acc * 10 + (c.toNat - 48 : ℚ)) 0, rest)

/-- Optional exponent of parseFloat: an e/E with a signed digit run scales
by a power of ten; otherwise it is ignored. -/
def floatExponent (q : ℚ) (cs : List Char) : ℚ :=
  match cs with
  | 'e' :: rs =>
    (match rs with
     | '-' :: rs2 => match digitsVal rs2 with
       | some e => q / 10 ^ e
       | none => q
     | '+' :: rs2 => match digitsVal rs2 with
       | some e => q * 10 ^ e
       | none => q
     | _ => match digitsVal rs with
       | some e => q * 10 ^ e
       | none => q)
  | 'E' :: rs =>
    (match rs with
     | '-' :: rs2 => match digitsVal rs2 with
       | some e => q / 10 ^ e
       | none => q
     | '+' :: rs2 => match digitsVal rs2 with
       | some e => q * 10 ^ e
       | none => q
     | _ => match digitsVal rs with
       | some e => q * 10 ^ e
       | none => q)
  | _ => q

/-- parseFloat semantics: optional sign, mantissa, optional exponent;
no leading numeric part means NaN (none). -/
def jsParseFloat (cs : List Char) : Option ℚ :=
  let cs := cs.dropWhile Char.isWhitespace
  match cs with
  | '-' :: rs => (floatMantissa rs).map (fun p => -(floatExponent p.1 p.2))
  | '+' :: rs => (floatMantissa rs).map (fun p => floatExponent p.1 p.2)
  | _ => (floatMantissa cs).map (fun p => floatExponent p.1 p.2)

/-- parseFloatField from csv-codec.ts. -/
def parseFloatField (value : String) : Option ℚ :=
  if value.length = 0 then none
  else jsParseFloat value.data

/-- decodeAck from csv-codec.ts: the status field is not derived from the
line; the message always carries AckStatus.ACCEPTED. -/
def decodeAck (fields : List String) : DecodeResult :=
  if fields.length < 4 then ⟨false, none, some "ACK: insufficient fields"⟩
  else
    let symbol := fields.getD 1 ""
    if ¬ isValidSymbol symbol then ⟨false, none, some "ACK: invalid symbol"⟩
    else
      match parseIntField (fields.getD 2 "") with
      | none => ⟨false, none, some "ACK: invalid user ID"⟩
      | some _userId =>
        match parseIntField (fields.getD 3 "") with
        | none => ⟨false, none, some "ACK: invalid order ID"⟩
        | some userOrderId =>
          ⟨true, some (.ack symbol userOrderId .accepted), none⟩

/-- decodeTrade from csv-codec.ts (price transmitted in cents). -/
def decodeTrade (fields : List String) : DecodeResult :=
  if fields.length < 8 then ⟨false, none, some "TRADE: insufficient fields"⟩
  else
    let symbol := fields.getD 1 ""
    if ¬ isValidSymbol symbol then ⟨false, none, some "TRADE: invalid symbol"⟩
    else
      match parseIntField (fields.getD 2 "") with
      | none => ⟨false, none, some "TRADE: invalid buy user ID"⟩
      | some _buyUserId =>
        match parseIntField (fields.getD 3 "") with
        | none => ⟨false, none, some "TRADE: invalid buy order ID"⟩
        | some buyOrderId =>
          match parseIntField (fields.getD 4 "") with
          | none => ⟨false, none, some "TRADE: invalid sell user ID"⟩
          | some _sellUserId =>
            match parseIntField (fields.getD 5 "") with
            | none => ⟨false, none, some "TRADE: invalid sell order ID"⟩
            | some sellOrderId =>
              match parseFloatField (fields.getD 6 "") with
              | none => ⟨false, none, some "TRADE: invalid price"⟩
              | some priceCents =>
                match parseIntField (fields.getD 7 "") with
                | none => ⟨false, none, some "TRADE: invalid quantity"⟩
                | some quantity =>
                  ⟨true,
                    some (.trade symbol (priceCents / 100) quantity
                      buyOrderId sellOrderId),
                    none⟩

/-- decodeReject from csv-codec.ts. -/
def decodeReject (fields : List String) : DecodeResult :=
  if fields.length < 5 then ⟨false, none, some "REJECT: insufficient fields"⟩
  else
    let symbol := fields.getD 1 ""
    if ¬ isValidSymbol symbol then ⟨false, none, some "REJECT: invalid symbol"⟩
    else
      match parseIntField (fields.getD 2 "") with
      | none => ⟨false, none, some "REJECT: invalid user ID"⟩
      | some _userId =>
        match parseIntField (fields.getD 3 "") with
        | none => ⟨false, none, some "REJECT: invalid order ID"⟩
        | some userOrderId =>
          match parseIntField (fields.getD 4 "") with
          | none => ⟨false, none, some "REJECT: invalid reason"⟩
          | some reason =>
            ⟨true, some (.reject symbol userOrderId reason), none⟩

/-- decodeCancelAck from csv-codec.ts (reached for both X and C tags). -/
def decodeCancelAck (fields : List String) : DecodeResult :=
  if fields.length < 4 then ⟨false, none, some "CANCEL_ACK: insufficient fields"⟩
  else
    let symbol := fields.getD 1 ""
    if ¬ isValidSymbol symbol then ⟨false, none, some "CANCEL_ACK: invalid symbol"⟩
    else
      match parseIntField (fields.getD 2 "") with
      | none => ⟨false, none, some "CANCEL_ACK: invalid user ID"⟩
      | some _userId =>
        match parseIntField (fields.getD 3 "") with
        | none => ⟨false, none, some "CANCEL_ACK: invalid order ID"⟩
        | some userOrderId =>
          ⟨true, some (.cancelAck symbol userOrderId), none⟩

/-- decodeTopOfBook from csv-codec.ts: full five-field form, else the
single-sided form. -/
def decodeTopOfBook (fields : List String) : DecodeResult :=
  if fields.length ≥ 6 then
    let symbol := fields.getD 1 ""
    if ¬ isValidSymbol symbol then ⟨false, none, some "TOB: invalid symbol"⟩
    else
      match parseFloatField (fields.getD 2 "") with
      | none => ⟨false, none, some "TOB: invalid bid price"⟩
      | some bidPriceCents =>
        match parseFloatField (fields.getD 3 "") with
        | none => ⟨false, none, some "TOB: invalid ask price"⟩
        | some askPriceCents =>
          match parseIntField (fields.getD 4 "") with
          | none => ⟨false, none, some "TOB: invalid bid quantity"⟩
          | some bidQuantity =>
            match parseIntField (fields.getD 5 "") with
            | none => ⟨false, none, some "TOB: invalid ask quantity"⟩
            | some askQuantity =>
              ⟨true,
                some (.topOfBook symbol (bidPriceCents / 100) (askPriceCents / 100)
                  bidQuantity askQuantity),
                none⟩
  else if fields.length ≥ 5 then
    let symbol := fields.getD 1 ""
    if ¬ isValidSymbol symbol then ⟨false, none, some "TOB: invalid symbol"⟩
    else
      let side := fields.getD 2 ""
      match parseFloatField (fields.getD 3 "") with
      | none => ⟨false, none, some "TOB: invalid price"⟩
      | some priceCents =>
        match parseIntField (fields.getD 4 "") with
        | none => ⟨false, none, some "TOB: invalid quantity"⟩
        | some quantity =>
          let isBid := side = "B" ∨ side = "BID" ∨ side = "BUY"
          if isBid then
            ⟨true, some (.topOfBook symbol (priceCents / 100) 0 quantity 0), none⟩
          else
            ⟨true, some (.topOfBook symbol 0 (priceCents / 100) 0 quantity), none⟩
  else ⟨false, none, some "TOB: insufficient fields"⟩

/-- decode from csv-codec.ts: only the output message tags A, T, R, B and
X/C dispatch to a decoder; everything else (including the input tag N) is
an unknown message type. -/
def decode (line : String) : DecodeResult :=
  if line.length = 0 then ⟨false, none, some "Empty message"⟩
  else if line.length > MAX_CSV_MESSAGE_LENGTH then ⟨false, none, some "Message too long"⟩
  else
    match splitFields line.data with
    | none => ⟨false, none, some "Failed to parse fields"⟩
    | some fieldsChars =>
      let fields := fieldsChars.map String.mk
      if fields.length = 0 then ⟨false, none, some "No fields found"⟩
      else
        let msgType := fields.getD 0 ""
        if msgType = "A" then decodeAck fields
        else if msgType = "T" then decodeTrade fields
        else if msgType = "R" then decodeReject fields
        else if msgType = "B" then decodeTopOfBook fields
        else if msgType = "X" ∨ msgType = "C" then decodeCancelAck fields
        else ⟨false, none, some ("Unknown message type: " ++ msgType)⟩

/-- isCsvMessage from csv-codec.ts. -/
def isCsvMessage (firstByte : Nat) : Bool :=
  if firstByte = 0x4e then true
  else if firstByte = 0x43 then true
  else if firstByte = 0x41 then true
  else if firstByte = 0x54 then true
  else if firstByte = 0x52 then true
  else if firstByte = 0x42 then true
  else if firstByte = 0x58 then true
  else false

end CsvCodec

namespace CodecRouter

open Protocol

/-- TextEncoder modelled as the code-point embedding of characters into
bytes (exact on the ASCII range used by the CSV wire format). -/
def stringToBytes (s : String) : List Nat :=
  s.data.map Char.toNat

/-- TextDecoder modelled as the inverse code-point mapping. -/
def bytesToString (bs : List Nat) : String :=
  String.mk (bs.map Char.ofNat)

/-- Detection confidence from codec.ts. -/
inductive Confidence where
  | high
  | low
  deriving DecidableEq, Repr

/-- Detection result from codec.ts. -/
structure DetectResult where
  codec : Codec
  confidence : Confidence
  deriving DecidableEq, Repr

/-- Encode result of the router (bytes either way). -/
structure EncodeResult where
  success : Bool
  data : List Nat
  error : Option String
  deriving DecidableEq, Repr

/-- Decode result of the router. -/
structure DecodeResult where
  success : Bool
  message : Option OutputMessage
  codec : Codec
  error : Option String
  deriving DecidableEq, Repr

/-- detectCodec from codec.ts: magic byte, then CSV tag letters, then the
printable-ASCII and small-value heuristics. -/
def detectCodec (data : List Nat) : DetectResult :=
  if data.length = 0 then ⟨.unknown, .low⟩
  else
    let firstByte := data.getD 0 0
    if BinaryCodec.isBinaryMessage firstByte then ⟨.binary, .high⟩
    else if CsvCodec.isCsvMessage firstByte then ⟨.csv, .high⟩
    else if 0x20 ≤ firstByte ∧ firstByte ≤ 0x7e then ⟨.csv, .low⟩
    else if firstByte < 0x20 then ⟨.binary, .low⟩
    else ⟨.unknown, .low⟩

/-- encode from codec.ts: CSV output is passed through TextEncoder. -/
def encode (msg : InputMessage) (codec : Codec) : EncodeResult :=
  match codec with
  | .csv =>
    let result := CsvCodec.encode msg
    if ¬ result.success then ⟨false, [], result.error⟩
    else ⟨true, stringToBytes result.data, none⟩
  | .binary =>
    let result := BinaryCodec.encode msg
    ⟨result.success, result.data, result.error⟩
  | .unknown => ⟨false, [], some "Unknown codec"⟩

/-- decodeBinary from codec.ts: the router refuses binary buffers shorter
than BINARY_MESSAGE_SIZE (64) before delegating. -/
def decodeBinary (data : List Nat) : DecodeResult :=
  if data.length < BINARY_MESSAGE_SIZE then
    ⟨false, none, .binary, some "Binary message too short"⟩
  else
    let result := BinaryCodec.decode data
    ⟨result.success, result.message, .binary, result.error⟩

/-- decodeCsv from codec.ts: bytes through TextDecoder, then the CSV codec. -/
def decodeCsv (data : List Nat) : DecodeResult :=
  let result := CsvCodec.decode (bytesToString data)
  ⟨result.success, result.message, .csv, result.error⟩

/-- decode from codec.ts: automatic codec detection then delegation. -/
def decode (data : List Nat) : DecodeResult :=
  if data.length = 0 then ⟨false, none, .unknown, some "Empty message"⟩
  else
    let detection := detectCodec data
    if detection.codec = .binary then decodeBinary data
    else if detection.codec = .csv then decodeCsv data
    else ⟨false, none, .unknown, some "Could not detect codec"⟩

def MAX_BATCH_MESSAGES : Nat := 64

/-- Batch decode result from codec.ts. -/
structure BatchDecodeResult where
  messages : List OutputMessage
  errors : List String
  codec : Codec
  deriving DecidableEq, Repr

/-- Loop body of decodeBinaryBatch: decode the i-th 64-byte slice and
append either the message or an indexed error. -/
def binaryBatchStep (data : List Nat) (acc : List OutputMessage × List String)
    (i : Nat) : List OutputMessage × List String :=
  let slice := (data.drop (i * BINARY_MESSAGE_SIZE)).take BINARY_MESSAGE_SIZE
  let result := BinaryCodec.decode slice
  match result.message, result.success with
  | some m, true => (acc.1 ++ [m], acc.2)
  | _, _ =>
    match result.error with
    | some e => (acc.1, acc.2 ++ ["Message " ++ toString i ++ ": " ++ e])
    | none => acc

/-- decodeBinaryBatch from codec.ts: split at fixed 64-byte boundaries,
decode floor(length/64) slices up to the batch cap; trailing bytes that do
not fill a slice take no part in the result. -/
def decodeBinaryBatch (data : List Nat) : BatchDecodeResult :=
  let messageCount := data.length / BINARY_MESSAGE_SIZE
  let boundedCount := min messageCount MAX_BATCH_MESSAGES
  let r := (List.range boundedCount).foldl (binaryBatchStep data) ([], [])
  ⟨r.1, r.2, .binary⟩

/-- Loop of decodeCsvBatch: the buffer split on newline bytes, skipping
empty segments, decoding up to the batch cap. -/
def csvBatchGo (segments : List (List Nat)) (msgCount : Nat) :
    List OutputMessage × List String :=
  match segments with
  | [] => ([], [])
  | seg :: rest =>
    if msgCount ≥ MAX_BATCH_MESSAGES then ([], [])
    else if seg = [] then csvBatchGo rest msgCount
    else
      let result := CsvCodec.decode (bytesToString seg)
      let tail := csvBatchGo rest (msgCount + 1)
      match result.message, result.success with
      | some m, true => (m :: tail.1, tail.2)
      | _, _ =>
        match result.error with
        | some e => (tail.1, ("Line " ++ toString msgCount ++ ": " ++ e) :: tail.2)
        | none => tail

/-- decodeCsvBatch from codec.ts. -/
def decodeCsvBatch (data : List Nat) : BatchDecodeResult :=
  let r := csvBatchGo (data.splitOn 10) 0
  ⟨r.1, r.2, .csv⟩

/-- decodeBatch from codec.ts: detect then split per codec. -/
def decodeBatch (data : List Nat) : BatchDecodeResult :=
  if data.length = 0 then ⟨[], ["Empty buffer"], .unknown⟩
  else
    let detection := detectCodec data
    if detection.codec = .binary then decodeBinaryBatch data
    else if detection.codec = .csv then decodeCsvBatch data
    else ⟨[], ["Could not detect codec"], .unknown⟩

end CodecRouter

namespace TcpRelay

def LENGTH_PREFIX_SIZE : Nat := 4
def MAX_MESSAGE_SIZE : Nat := 1048576
def MAX_CLIENTS : Nat := 256
def MAX_TCP_ITERATIONS : Nat := 100

/-- Big-endian 4-byte length prefix (Buffer.writeUInt32BE). -/
def u32be (n : Nat) : List Nat :=
  [n / 16777216 % 256, n / 65536 % 256, n / 256 % 256, n % 256]

/-- Buffer.readUInt32BE(0) on the receive buffer. -/
def readU32BE (buf : List Nat) : Nat :=
  buf.getD 0 0 * 16777216 + buf.getD 1 0 * 65536 + buf.getD 2 0 * 256 + buf.getD 3 0

/-- Error text logged when the declared length exceeds the sanity limit. -/
def lengthError (messageLength : Nat) : String :=
  "TCP: invalid message length " ++ toString messageLength

/-- Result of one processTcpBuffer call: the payloads broadcast in order,
the protocol errors emitted, and the receive buffer left behind. -/
structure ProcessResult where
  payloads : List (List Nat)
  errors : List String
  buffer : List Nat
  deriving DecidableEq, Repr

/-- processTcpBuffer from tcp-relay.ts, parametrised by the remaining
iteration budget (the call runs it with MAX_TCP_ITERATIONS = 100): read the
4-byte prefix when available; an oversized declared length discards the
whole pending buffer and stops; an incomplete frame stops; otherwise the
payload is sliced out, broadcast and the loop continues. -/
def processTcpBuffer (fuel : Nat) (buf : List Nat) : ProcessResult :=
  match fuel with
  | 0 => ⟨[], [], buf⟩
  | fuel' + 1 =>
    if buf.length < LENGTH_PREFIX_SIZE then ⟨[], [], buf⟩
    else
      let messageLength := readU32BE buf
      if messageLength > MAX_MESSAGE_SIZE then ⟨[], [lengthError messageLength], []⟩
      else
        let totalLength := LENGTH_PREFIX_SIZE + messageLength
        if buf.length < totalLength then ⟨[], [], buf⟩
        else
          let messageData := (buf.drop LENGTH_PREFIX_SIZE).take messageLength
          let rest := buf.drop totalLength
          let r := processTcpBuffer fuel' rest
          ⟨messageData :: r.payloads, r.errors, r.buffer⟩

/-- The data handler from tcp-relay.ts: append the chunk to the receive
buffer and run processTcpBuffer, chaining the buffer across chunks and
collecting the broadcast payloads in order. -/
def runTcpFeedFrom (buf : List Nat) : List (List Nat) → ProcessResult
  | [] => ⟨[], [], buf⟩
  | chunk :: chunks =>
    let r := processTcpBuffer MAX_TCP_ITERATIONS (buf ++ chunk)
    let rest := runTcpFeedFrom r.buffer chunks
    ⟨r.payloads ++ rest.payloads, r.errors ++ rest.errors, rest.buffer⟩

/-- Feed a sequence of chunks to a fresh (empty) receive buffer. -/
def runTcpFeed (chunks : List (List Nat)) : ProcessResult :=
  runTcpFeedFrom [] chunks

/-- Length-prefixed encoding of one frame (forwardToTcp framing). -/
def encodeFrame (payload : List Nat) : List Nat :=
  u32be payload.length ++ payload

/-- Concatenated length-prefixed stream of a frame sequence. -/
def frameStream (frames : List (List Nat)) : List Nat :=
  (frames.map encodeFrame).flatten

/-- Client slot table from tcp-relay.ts: a fixed array of MAX_CLIENTS
optional entries (holding the client id) plus the monotone id counter. -/
structure ClientTable where
  slots : List (Option Nat)
  clientIdCounter : Nat
  deriving DecidableEq, Repr

/-- Scan of addClient: place the id in the first empty slot. -/
def addClientGo (id : Nat) : List (Option Nat) → Option (List (Option Nat))
  | [] => none
  | none :: rest => some (some id :: rest)
  | some c :: rest => (addClientGo id rest).map (fun r => some c :: r)

/-- addClient from tcp-relay.ts: the new client takes the current counter
as id and the counter increments; a full table yields no client. -/
def addClient (st : ClientTable) : Option Nat × ClientTable :=
  match addClientGo st.clientIdCounter st.slots with
  | some slots' => (some st.clientIdCounter, ⟨slots', st.clientIdCounter + 1⟩)
  | none => (none, st)

/-- Scan of removeClient: clear the first slot holding the id. -/
def removeClientGo (id : Nat) : List (Option Nat) → List (Option Nat)
  | [] => []
  | some c :: rest =>
      if c = id then none :: rest else some c :: removeClientGo id rest
  | none :: rest => none :: removeClientGo id rest

/-- removeClient from tcp-relay.ts. -/
def removeClient (id : Nat) (st : ClientTable) : ClientTable :=
  ⟨removeClientGo id st.slots, st.clientIdCounter⟩

/-- getClientCount from tcp-relay.ts. -/
def getClientCount (st : ClientTable) : Nat :=
  st.slots.countP Option.isSome

/-- Outcome of handleWsConnection for one incoming connection. -/
inductive AcceptResult where
  | accepted (id : Nat)
  | rejected (closeCode : Nat) (reason : String)
  deriving DecidableEq, Repr

/-- handleWsConnection from tcp-relay.ts: reject with close code 1013 when
the table is full. -/
def handleWsConnection (st : ClientTable) : AcceptResult × ClientTable :=
  match addClient st with
  | (some id, st') => (.accepted id, st')
  | (none, st') => (.rejected 1013 "Max clients reached", st')

/-- Initial client table: all slots free, ids start at 0. -/
def initTable : ClientTable :=
  ⟨List.replicate MAX_CLIENTS none, 0⟩

/-- Connection-level events at the relay, for reasoning about traces. -/
inductive RelayOp where
  | accept
  | close (id : Nat)
  deriving DecidableEq, Repr

/-- Apply one event to the client table. -/
def applyOp (st : ClientTable) : RelayOp → ClientTable
  | .accept => (handleWsConnection st).2
  | .close id => removeClient id st

/-- Ids handed out along a trace of events, in order. -/
def assignedIds (st : ClientTable) : List RelayOp → List Nat
  | [] => []
  | .accept :: ops =>
    match addClient st with
    | (some id, st') => id :: assignedIds st' ops
    | (none, st') => assignedIds st' ops
  | .close id :: ops => assignedIds (removeClient id st) ops

end TcpRelay

namespace MulticastRelay

def SEQUENCE_SIZE : Nat := 8

/-- Big-endian 8-byte sequence read (Buffer.readBigUInt64BE). -/
def readU64BE (data : List Nat) : Nat :=
  data.getD 0 0 * 72057594037927936 + data.getD 1 0 * 281474976710656 +
    data.getD 2 0 * 1099511627776 + data.getD 3 0 * 4294967296 +
    data.getD 4 0 * 16777216 + data.getD 5 0 * 65536 +
    data.getD 6 0 * 256 + data.getD 7 0

/-- Big-endian 8-byte encoding of a sequence number. -/
def u64be (n : Nat) : List Nat :=
  [n / 72057594037927936 % 256, n / 281474976710656 % 256,
   n / 1099511627776 % 256, n / 4294967296 % 256,
   n / 16777216 % 256, n / 65536 % 256, n / 256 % 256, n % 256]

/-- Gap-tracking state of the multicast relay: the last observed sequence
(0 is the uninitialized sentinel) and the cumulative gap counter. -/
structure SeqState where
  lastSequence : Nat
  sequenceGaps : Nat
  deriving DecidableEq, Repr

/-- checkSequence from multicast-relay.ts: datagrams shorter than the
8-byte header are ignored; with a recorded previous sequence, a new
sequence other than previous+1 adds the (signed) shortfall when positive
and 1 otherwise; the new sequence is always stored. -/
def checkSequence (st : SeqState) (data : List Nat) : SeqState :=
  if data.length < SEQUENCE_SIZE then st
  else
    let sequence := readU64BE data
    let st1 :=
      if st.lastSequence ≠ 0 then
        if sequence ≠ st.lastSequence + 1 then
          let gap : Int := (sequence : Int) - (st.lastSequence : Int) - 1
          { st with sequenceGaps := st.sequenceGaps + (if gap > 0 then gap.toNat else 1) }
        else st
      else st
    { st1 with lastSequence := sequence }

end MulticastRelay

namespace WebSocketClient

def MAX_RECONNECT_ATTEMPTS : Nat := 10
def RECONNECT_BASE_DELAY_MS : ℚ := 1000
def RECONNECT_MAX_DELAY_MS : ℚ := 30000

/-- Connection states from websocket-client.ts. -/
inductive ConnectionState where
  | disconnected
  | connecting
  | connected
  | reconnecting
  | failed
  deriving DecidableEq, Repr

/-- The part of the client state that drives reconnect scheduling. -/
structure ClientState where
  state : ConnectionState
  reconnectAttempts : Nat
  reconnectEnabled : Bool
  maxReconnectAttempts : Nat
  deriving DecidableEq, Repr

/-- scheduleReconnect from websocket-client.ts, with Math.random modelled
by the parameter `rand` in [0, 1): returns the updated state and the delay
of the scheduled timer, or none when no reconnect is scheduled. -/
def scheduleReconnect (s : ClientState) (rand : ℚ) : ClientState × Option ℚ :=
  if ¬ s.reconnectEnabled then ({ s with state := .failed }, none)
  else if s.reconnectAttempts ≥ s.maxReconnectAttempts then
    ({ s with state := .failed }, none)
  else
    let baseDelay := RECONNECT_BASE_DELAY_MS * 2 ^ s.reconnectAttempts
    let cappedDelay := min baseDelay RECONNECT_MAX_DELAY_MS
    let jitter := rand * (3 / 10) * cappedDelay
    let delay := cappedDelay + jitter
    ({ s with state := .reconnecting, reconnectAttempts := s.reconnectAttempts + 1 },
      some delay)

/-- handleOpen from websocket-client.ts: successful open moves to
CONNECTED and resets the attempt counter. -/
def handleOpen (s : ClientState) : ClientState :=
  { s with state := .connected, reconnectAttempts := 0 }

/-- Capped (pre-jitter) delay the n-th scheduling uses. -/
def cappedDelayFor (attempts : Nat) : ℚ :=
  min (RECONNECT_BASE_DELAY_MS * 2 ^ attempts) RECONNECT_MAX_DELAY_MS

end WebSocketClient

namespace ConnectionManager

open Protocol

def MAX_QUEUED_MESSAGES : Nat := 256

/-- Send result from connection-manager.ts. -/
structure SendResult where
  success : Bool
  error : Option String
  deriving DecidableEq, Repr

/-- sendOrder from connection-manager.ts, as a function of the encoded
message, the orders client (absent, or present with its state), whether a
direct send would succeed, and the queue: encode with the outbound codec;
while not CONNECTED append to the bounded queue, reporting queue-full
explicitly; when CONNECTED send directly. -/
def sendOrder (msg : InputMessage) (outboundCodec : Codec)
    (ordersClient : Option WebSocketClient.ConnectionState) (sendOk : Bool)
    (queue : List (List Nat)) : SendResult × List (List Nat) :=
  let encodeResult := CodecRouter.encode msg outboundCodec
  if ¬ encodeResult.success then (⟨false, encodeResult.error⟩, queue)
  else
    match ordersClient with
    | none =>
      if queue.length < MAX_QUEUED_MESSAGES then
        (⟨true, none⟩, queue ++ [encodeResult.data])
      else (⟨false, some "Message queue full"⟩, queue)
    | some state =>
      if state ≠ .connected then
        if queue.length < MAX_QUEUED_MESSAGES then
          (⟨true, none⟩, queue ++ [encodeResult.data])
        else (⟨false, some "Message queue full"⟩, queue)
      else
        if sendOk then (⟨true, none⟩, queue)
        else (⟨false, some "Failed to send"⟩, queue)

/-- Loop of flushMessageQueue from connection-manager.ts: `sendOk i` is
the outcome of the i-th send of this flush; a failed send puts the message
back at the front and stops; the loop is capped at MAX_QUEUED_MESSAGES
sends.  Returns the messages sent in order and the remaining queue. -/
def flushGo (sendOk : Nat → Bool) : List (List Nat) → Nat →
    List (List Nat) × List (List Nat)
  | [], _ => ([], [])
  | d :: rest, flushed =>
    if flushed ≥ MAX_QUEUED_MESSAGES then ([], d :: rest)
    else if sendOk flushed then
      let r := flushGo sendOk rest (flushed + 1)
      (d :: r.1, r.2)
    else ([], d :: rest)

/-- flushMessageQueue from connection-manager.ts (run on the transition to
CONNECTED). -/
def flushMessageQueue (sendOk : Nat → Bool) (queue : List (List Nat)) :
    List (List Nat) × List (List Nat) :=
  flushGo sendOk queue 0

end ConnectionManager

/-- One valid 64-byte-aligned TopOfBook wire message: the 19 decoded bytes
(magic, type B, 8-byte symbol, side byte, price, quantity) padded to the
64-byte batch stride. -/
def tobBlock : List Nat :=
  [0x4d, 0x42] ++ BinaryCodec.writeSymbol "AAPL" ++ [0x42] ++
    BinaryCodec.u32be 15000 ++ BinaryCodec.u32be 100 ++ List.replicate 45 0

/-- The message tobBlock decodes to. -/
def tobMessage : Protocol.OutputMessage :=
  .topOfBook "AAPL" 150 0 100 0

/-- Validity of an input message, as the conjunction of the source
validators on its fields (types.ts). -/
def ValidInput : Protocol.InputMessage → Prop
  | .newOrder symbol userId userOrderId _side price quantity =>
      Protocol.isValidSymbol symbol = true ∧ Protocol.isValidUserId userId = true ∧
      Protocol.isValidOrderId userOrderId = true ∧ Protocol.isValidPrice price = true ∧
      Protocol.isValidQuantity quantity = true
  | .cancel symbol userId userOrderId =>
      Protocol.isValidSymbol symbol = true ∧ Protocol.isValidUserId userId = true ∧
      Protocol.isValidOrderId userOrderId = true
  | .flush _userId => True

/-- Absence of non-ACCEPTED Ack messages in an optional decoded message. -/
def AckOk (m : Option Protocol.OutputMessage) : Prop :=
  ∀ (sym : String) (oid : Int) (status : Protocol.AckStatus),
    m = some (.ack sym oid status) → status = .accepted

/-- A concrete 18-byte binary Ack wire message. -/
def c10AckBuf : List Nat :=
  [0x4d, 0x41] ++ BinaryCodec.writeSymbol "AAPL" ++
    BinaryCodec.u32be 1 ++ BinaryCodec.u32be 7

/-- Client table reached from the initial table by 256 accepted
connections. -/
def c9FullTable : TcpRelay.ClientTable :=
  List.foldl TcpRelay.applyOp TcpRelay.initTable (List.replicate 256 .accept)

/-- Stalled receive buffer: too short for a length prefix, or declaring an
in-range length whose frame has not fully arrived. -/
def Stalled (r : List Nat) : Prop :=
  r.length < 4 ∨
    ∃ n, r.take 4 = TcpRelay.u32be n ∧ n ≤ TcpRelay.MAX_MESSAGE_SIZE ∧
      r.length < 4 + n

/-- C2 counterexample: the CSV line "N,AAPL,1001,1,B,15000,100\n" does not
decode successfully (neither through the CSV codec nor through the
auto-detecting router), so no NewOrder with price 150.00 is produced. -/
theorem c2_counterexample :
    (CsvCodec.decode "N,AAPL,1001,1,B,15000,100\n").success = false ∧
    (CodecRouter.decode
      (CodecRouter.stringToBytes "N,AAPL,1001,1,B,15000,100\n")).message = none := by
  decide

/-- C2 (amended): decoding the CSV line "N,AAPL,1001,1,B,15000,100\n"
fails with the error "Unknown message type: N" — the CSV decoder
dispatches only the output tags A, T, R, B and X/C, so the input tag N is
rejected and no message is produced. -/
theorem c2_csv_newOrder_line_rejected :
    CsvCodec.decode "N,AAPL,1001,1,B,15000,100\n" =
      ⟨false, none, some "Unknown message type: N"⟩ := by
  decide

/-- C3 counterexample: a buffer of three full 64-byte TopOfBook messages
followed by 10 trailing bytes batch-decodes to the three messages with an
EMPTY error list — the trailing bytes are not reported as an error string,
contrary to the claim. -/
theorem c3_counterexample :
    (CodecRouter.decodeBatch
      (tobBlock ++ tobBlock ++ tobBlock ++ List.replicate 10 7)).messages.length = 3 ∧
    (CodecRouter.decodeBatch
      (tobBlock ++ tobBlock ++ tobBlock ++ List.replicate 10 7)).errors = [] := by
  decide

/-- C3 (amended): a buffer holding exactly 3 concatenated valid 64-byte
TopOfBook messages batch-decodes to exactly those 3 messages with no
errors; with 10 trailing bytes appended the same 3 messages are returned,
the trailing bytes are silently discarded (no error string), and — the
batch decoder being a pure function of its input buffer — they are not
retained for any later call (the result with trailing bytes is identical
to the result without them). -/
theorem decode_tobBlock :
    BinaryCodec.decode tobBlock =
      ⟨true, some tobMessage, BinaryCodec.TOP_OF_BOOK_WIRE_SIZE, none⟩ := by
  have h1 : BinaryCodec.readU32Big tobBlock 11 = 15000 := by decide
  have h2 : BinaryCodec.readU32Big tobBlock 15 = 100 := by decide
  have h3 : BinaryCodec.readSymbol tobBlock BinaryCodec.HEADER_SIZE = "AAPL" := by decide
  simp only [BinaryCodec.decode, BinaryCodec.decodeTopOfBook]
  rw [if_neg (by decide), if_neg (by decide), if_neg (by decide), if_neg (by decide),
      if_neg (by decide), if_neg (by decide), if_pos (by decide), if_neg (by decide),
      if_pos (by decide)]
  rw [h1, h2, h3]
  simp only [tobMessage]
  norm_num

theorem c3_binary_batch_trailing_silent :
    CodecRouter.decodeBatch (tobBlock ++ tobBlock ++ tobBlock) =
      ⟨[tobMessage, tobMessage, tobMessage], [], .binary⟩ ∧
    CodecRouter.decodeBatch (tobBlock ++ tobBlock ++ tobBlock ++ List.replicate 10 7) =
      ⟨[tobMessage, tobMessage, tobMessage], [], .binary⟩ ∧
    CodecRouter.decodeBatch (tobBlock ++ tobBlock ++ tobBlock ++ List.replicate 10 7) =
      CodecRouter.decodeBatch (tobBlock ++ tobBlock ++ tobBlock) := by
  have hclean :
      CodecRouter.decodeBatch (tobBlock ++ tobBlock ++ tobBlock) =
        ⟨[tobMessage, tobMessage, tobMessage], [], .binary⟩ := by
    have hs0 : (tobBlock ++ (tobBlock ++ tobBlock)).take 64 = tobBlock := by decide
    have hs1 : ((tobBlock ++ (tobBlock ++ tobBlock)).drop 64).take 64 = tobBlock := by decide
    have hs2 : ((tobBlock ++ (tobBlock ++ tobBlock)).drop 128).take 64 = tobBlock := by decide
    have hlen : (tobBlock ++ tobBlock ++ tobBlock).length = 192 := by decide
    have hdet : CodecRouter.detectCodec (tobBlock ++ tobBlock ++ tobBlock) =
        ⟨.binary, .high⟩ := by decide
    simp only [CodecRouter.decodeBatch, CodecRouter.decodeBinaryBatch, hdet, hlen,
      Protocol.BINARY_MESSAGE_SIZE, CodecRouter.MAX_BATCH_MESSAGES]
    norm_num [List.range_succ]
    simp only [CodecRouter.binaryBatchStep, Protocol.BINARY_MESSAGE_SIZE]
    norm_num [hs0, hs1, hs2, decode_tobBlock]
  have htrail :
      CodecRouter.decodeBatch (tobBlock ++ tobBlock ++ tobBlock ++ List.replicate 10 7) =
        ⟨[tobMessage, tobMessage, tobMessage], [], .binary⟩ := by
    have hs0 : (tobBlock ++ (tobBlock ++ (tobBlock ++ List.replicate 10 7))).take 64
        = tobBlock := by decide
    have hs1 : ((tobBlock ++ (tobBlock ++ (tobBlock ++ List.replicate 10 7))).drop 64).take 64
        = tobBlock := by decide
    have hs2 : ((tobBlock ++ (tobBlock ++ (tobBlock ++ List.replicate 10 7))).drop 128).take 64
        = tobBlock := by decide
    have hlen : (tobBlock ++ tobBlock ++ tobBlock ++ List.replicate 10 7).length = 202 := by
      decide
    have hdet :
        CodecRouter.detectCodec (tobBlock ++ tobBlock ++ tobBlock ++ List.replicate 10 7) =
        ⟨.binary, .high⟩ := by decide
    simp only [CodecRouter.decodeBatch, CodecRouter.decodeBinaryBatch, hdet, hlen,
      Protocol.BINARY_MESSAGE_SIZE, CodecRouter.MAX_BATCH_MESSAGES]
    norm_num [List.range_succ]
    simp only [CodecRouter.binaryBatchStep, Protocol.BINARY_MESSAGE_SIZE]
    norm_num [hs0, hs1, hs2, decode_tobBlock]
  exact ⟨hclean, htrail, htrail.trans hclean.symm⟩

/-- C5: whenever the frame reassembler reads a 4-byte length prefix whose
declared payload length exceeds the 1 MiB sanity maximum, the entire
pending receive buffer is discarded (the remaining buffer becomes empty,
not just the offending frame dropped), the protocol error is emitted, and
no payload is yielded from that buffer in that call. -/
theorem c5_oversized_length_discards_buffer :
    ∀ (buf : List Nat) (fuel : Nat),
      4 ≤ buf.length →
      TcpRelay.MAX_MESSAGE_SIZE < TcpRelay.readU32BE buf →
      TcpRelay.processTcpBuffer (fuel + 1) buf =
        ⟨[], [TcpRelay.lengthError (TcpRelay.readU32BE buf)], []⟩ := by
  intro buf fuel h4 hbig
  unfold TcpRelay.processTcpBuffer
  rw [if_neg (by simp [TcpRelay.LENGTH_PREFIX_SIZE]; omega)]
  simp only []
  rw [if_pos hbig]

/-- C5 witness: a concrete 4-byte buffer declaring a 4294967295-byte
payload is discarded whole with the error emitted. -/
theorem c5_witness :
    4 ≤ ([255, 255, 255, 255] : List Nat).length ∧
    TcpRelay.MAX_MESSAGE_SIZE < TcpRelay.readU32BE [255, 255, 255, 255] ∧
    TcpRelay.processTcpBuffer 1 [255, 255, 255, 255] =
      ⟨[], [TcpRelay.lengthError (TcpRelay.readU32BE [255, 255, 255, 255])], []⟩ :=
  ⟨by decide, by decide,
    c5_oversized_length_discards_buffer [255, 255, 255, 255] 0 (by decide) (by decide)⟩

/-- C6: feeding datagrams with big-endian sequence numbers 1,2,3,6,7 to
the gap detector starting from the sentinel 0 leaves the gap counter at 2
and lastSequence at 7; in general, with a previous sequence recorded and a
new sequence other than previous+1 the counter grows by
max(new - previous - 1, 1) (stated on the range where the JavaScript
double conversion of the gap is exact), and lastSequence is always
overwritten by the new sequence whenever the datagram has the 8-byte
header, regardless of ordering. -/
theorem c6_gap_detector :
    (List.foldl MulticastRelay.checkSequence ⟨0, 0⟩
        ([1, 2, 3, 6, 7].map MulticastRelay.u64be) =
      { lastSequence := 7, sequenceGaps := 2 })
  ∧ (∀ (st : MulticastRelay.SeqState) (data : List Nat),
      8 ≤ data.length →
      st.lastSequence ≠ 0 →
      MulticastRelay.readU64BE data ≠ st.lastSequence + 1 →
      (MulticastRelay.readU64BE data : Int) - st.lastSequence - 1 ≤ 2 ^ 53 →
      (MulticastRelay.checkSequence st data).sequenceGaps =
        st.sequenceGaps +
          (max ((MulticastRelay.readU64BE data : Int) - st.lastSequence - 1) 1).toNat)
  ∧ (∀ (st : MulticastRelay.SeqState) (data : List Nat),
      8 ≤ data.length →
      (MulticastRelay.checkSequence st data).lastSequence =
        MulticastRelay.readU64BE data) := by
  refine ⟨by decide, ?_, ?_⟩
  · intro st data h8 hlast hneq _hexact
    unfold MulticastRelay.checkSequence
    rw [if_neg (by simp [MulticastRelay.SEQUENCE_SIZE]; omega)]
    simp only [if_pos hlast, if_pos hneq]
    split <;> omega
  · intro st data h8
    unfold MulticastRelay.checkSequence
    rw [if_neg (by simp [MulticastRelay.SEQUENCE_SIZE]; omega)]

/-- C7: the delay scheduled for reconnect attempt n (the attempt counter
before the call, reset to 0 by a successful open) is
min(1000ms * 2^n, 30000ms) plus jitter rand * 0.3 * cappedDelay; for rand
in [0, 1) the delay lies within [capped, capped * 1.3], so the capped
delays of attempts 1..4 are 1000, 2000, 4000, 8000 ms; once the counter
has reached the configured maximum the state becomes FAILED and nothing is
scheduled; a successful open resets the counter to zero. -/
theorem c7_reconnect_backoff :
    (∀ (s : WebSocketClient.ClientState) (rand : ℚ),
      s.reconnectEnabled = true →
      s.reconnectAttempts < s.maxReconnectAttempts →
      WebSocketClient.scheduleReconnect s rand =
        ({ s with
            state := .reconnecting
            reconnectAttempts := s.reconnectAttempts + 1 },
          some (WebSocketClient.cappedDelayFor s.reconnectAttempts +
            rand * (3 / 10) * WebSocketClient.cappedDelayFor s.reconnectAttempts)))
  ∧ (∀ (s : WebSocketClient.ClientState) (rand : ℚ),
      s.reconnectEnabled = true →
      s.reconnectAttempts < s.maxReconnectAttempts →
      0 ≤ rand → rand < 1 →
      ∃ d, (WebSocketClient.scheduleReconnect s rand).2 = some d ∧
        WebSocketClient.cappedDelayFor s.reconnectAttempts ≤ d ∧
        d ≤ WebSocketClient.cappedDelayFor s.reconnectAttempts * (13 / 10))
  ∧ (WebSocketClient.cappedDelayFor 0 = 1000 ∧ WebSocketClient.cappedDelayFor 1 = 2000 ∧
      WebSocketClient.cappedDelayFor 2 = 4000 ∧ WebSocketClient.cappedDelayFor 3 = 8000)
  ∧ (∀ (s : WebSocketClient.ClientState) (rand : ℚ),
      s.maxReconnectAttempts ≤ s.reconnectAttempts →
      WebSocketClient.scheduleReconnect s rand = ({ s with state := .failed }, none))
  ∧ (∀ s : WebSocketClient.ClientState,
      WebSocketClient.handleOpen s = { s with state := .connected, reconnectAttempts := 0 }) := by
  have hsched : ∀ (s : WebSocketClient.ClientState) (rand : ℚ),
      s.reconnectEnabled = true →
      s.reconnectAttempts < s.maxReconnectAttempts →
      WebSocketClient.scheduleReconnect s rand =
        ({ s with
            state := .reconnecting
            reconnectAttempts := s.reconnectAttempts + 1 },
          some (WebSocketClient.cappedDelayFor s.reconnectAttempts +
            rand * (3 / 10) * WebSocketClient.cappedDelayFor s.reconnectAttempts)) := by
    intro s rand hen hlt
    unfold WebSocketClient.scheduleReconnect
    rw [if_neg (by simp [hen]), if_neg (by omega)]
    rfl
  have hcap : ∀ n : Nat, 0 ≤ WebSocketClient.cappedDelayFor n := by
    intro n
    unfold WebSocketClient.cappedDelayFor
    refine le_min (by unfold WebSocketClient.RECONNECT_BASE_DELAY_MS; positivity)
      (by norm_num [WebSocketClient.RECONNECT_MAX_DELAY_MS])
  refine ⟨hsched, ?_, ?_, ?_, fun s => rfl⟩
  · intro s rand hen hlt hr0 hr1
    refine ⟨_, by rw [hsched s rand hen hlt], ?_, ?_⟩
    · have := mul_nonneg (mul_nonneg hr0 (by norm_num : (0:ℚ) ≤ 3 / 10))
        (hcap s.reconnectAttempts)
      linarith
    · nlinarith [mul_nonneg (hcap s.reconnectAttempts) (sub_nonneg.mpr hr1.le)]
  · refine ⟨?_, ?_, ?_, ?_⟩ <;>
      norm_num [WebSocketClient.cappedDelayFor, WebSocketClient.RECONNECT_BASE_DELAY_MS,
        WebSocketClient.RECONNECT_MAX_DELAY_MS, min_def]
  · intro s rand hge
    unfold WebSocketClient.scheduleReconnect
    split
    · rfl
    · rfl

/-- C7 witness: from a fresh state (attempt counter 0, cap 10, reconnect
enabled) with rand = 1/2, the first reconnect is scheduled with capped
delay 1000ms plus jitter, the counter becomes 1, and the state
RECONNECTING. -/
theorem c7_witness :
    (0 : Nat) < 10 ∧
    WebSocketClient.scheduleReconnect ⟨.disconnected, 0, true, 10⟩ (1 / 2) =
      (⟨.reconnecting, 0 + 1, true, 10⟩,
        some (WebSocketClient.cappedDelayFor 0 +
          (1 / 2) * (3 / 10) * WebSocketClient.cappedDelayFor 0)) :=
  ⟨by decide, c7_reconnect_backoff.1 ⟨.disconnected, 0, true, 10⟩ (1 / 2) rfl (by decide)⟩

/-- Helper for C8: a flush in which every send succeeds drains the queue
in order (stated with the running flushed counter). -/
theorem flushGo_all_ok (sendOk : Nat → Bool) :
    ∀ (q : List (List Nat)) (j : Nat), (∀ i, sendOk i = true) →
      q.length + j ≤ ConnectionManager.MAX_QUEUED_MESSAGES →
      ConnectionManager.flushGo sendOk q j = (q, []) := by
  intro q
  induction q with
  | nil => intro j _ _; rfl
  | cons d rest ih =>
    intro j hall hlen
    unfold ConnectionManager.flushGo
    rw [if_neg (by
      simp only [ConnectionManager.MAX_QUEUED_MESSAGES] at hlen ⊢
      simp only [List.length_cons] at hlen
      omega)]
    rw [hall j, if_pos rfl, ih (j + 1) hall (by simp only [List.length_cons] at hlen; omega)]

/-- Helper for C8: a flush whose k-th send fails (all earlier ones
succeeding) sends exactly the first k messages and leaves the failed head
at the front of the queue. -/
theorem flushGo_fail_at (sendOk : Nat → Bool) :
    ∀ (q : List (List Nat)) (j k : Nat), k < q.length →
      j + q.length ≤ ConnectionManager.MAX_QUEUED_MESSAGES →
      (∀ i, i < k → sendOk (j + i) = true) →
      sendOk (j + k) = false →
      ConnectionManager.flushGo sendOk q j = (q.take k, q.drop k) := by
  intro q
  induction q with
  | nil => intro j k hk _ _ _; exact absurd hk (by simp)
  | cons d rest ih =>
    intro j k hk hlen hok hfail
    unfold ConnectionManager.flushGo
    rw [if_neg (by
      simp only [ConnectionManager.MAX_QUEUED_MESSAGES] at hlen ⊢
      simp only [List.length_cons] at hlen
      omega)]
    cases k with
    | zero =>
      rw [show sendOk j = false from by simpa using hfail, if_neg (by simp)]
      simp
    | succ k' =>
      have h0 : sendOk j = true := by simpa using hok 0 (Nat.succ_pos k')
      rw [h0, if_pos rfl]
      have hshift : j + (k' + 1) = (j + 1) + k' := by omega
      rw [ih (j + 1) k' (by simpa using hk)
        (by simp only [List.length_cons] at hlen; omega)
        (fun i hi => by
          have h := hok (i + 1) (by omega)
          rwa [show j + (i + 1) = (j + 1) + i from by omega] at h)
        (by rwa [hshift] at hfail)]
      simp

/-- C8: when the message encodes successfully and the orders client is
absent or not CONNECTED, the encoded bytes are appended to the FIFO queue
and sendOrder reports success while the queue holds fewer than 256
entries; with 256 entries queued it returns the explicit
"Message queue full" error and leaves the queue unchanged (no silent
drop); the flush run on transition to CONNECTED sends the queue in FIFO
order, draining it when every send succeeds, and when the k-th send fails
it stops, having sent exactly the first k messages, with the unsent head
back at the front of the remaining queue. -/
theorem c8_send_queueing_flush :
    (∀ (msg : Protocol.InputMessage) (codec : Protocol.Codec)
        (client : Option WebSocketClient.ConnectionState) (sendOk : Bool)
        (queue : List (List Nat)),
      (CodecRouter.encode msg codec).success = true →
      (client = none ∨ ∃ st, client = some st ∧ st ≠ .connected) →
      queue.length < ConnectionManager.MAX_QUEUED_MESSAGES →
      ConnectionManager.sendOrder msg codec client sendOk queue =
        (⟨true, none⟩, queue ++ [(CodecRouter.encode msg codec).data]))
  ∧ (∀ (msg : Protocol.InputMessage) (codec : Protocol.Codec)
        (client : Option WebSocketClient.ConnectionState) (sendOk : Bool)
        (queue : List (List Nat)),
      (CodecRouter.encode msg codec).success = true →
      (client = none ∨ ∃ st, client = some st ∧ st ≠ .connected) →
      ConnectionManager.MAX_QUEUED_MESSAGES ≤ queue.length →
      ConnectionManager.sendOrder msg codec client sendOk queue =
        (⟨false, some "Message queue full"⟩, queue))
  ∧ (∀ (sendOk : Nat → Bool) (queue : List (List Nat)),
      (∀ i, sendOk i = true) →
      queue.length ≤ ConnectionManager.MAX_QUEUED_MESSAGES →
      ConnectionManager.flushMessageQueue sendOk queue = (queue, []))
  ∧ (∀ (sendOk : Nat → Bool) (queue : List (List Nat)) (k : Nat),
      k < queue.length →
      queue.length ≤ ConnectionManager.MAX_QUEUED_MESSAGES →
      (∀ i, i < k → sendOk i = true) →
      sendOk k = false →
      ConnectionManager.flushMessageQueue sendOk queue =
        (queue.take k, queue.drop k)) := by
  refine ⟨?_, ?_, ?_, ?_⟩
  · intro msg codec client sendOk queue henc hcl hlen
    unfold ConnectionManager.sendOrder
    rw [if_neg (by simp [henc])]
    rcases hcl with rfl | ⟨st, rfl, hst⟩
    · simp only [if_pos hlen]
    · simp only [if_pos hst, if_pos hlen]
  · intro msg codec client sendOk queue henc hcl hlen
    unfold ConnectionManager.sendOrder
    rw [if_neg (by simp [henc])]
    have hfull : ¬ queue.length < ConnectionManager.MAX_QUEUED_MESSAGES := not_lt.mpr hlen
    rcases hcl with rfl | ⟨st, rfl, hst⟩
    · simp only [if_neg hfull]
    · simp only [if_pos hst, if_neg hfull]
  · intro sendOk queue hall hlen
    exact flushGo_all_ok sendOk queue 0 hall (by omega)
  · intro sendOk queue k hk hlen hok hfail
    exact flushGo_fail_at sendOk queue 0 k hk (by omega)
      (fun i hi => by simpa using hok i hi) (by simpa using hfail)

/-- C8 witness: with no orders client and an empty queue, a valid
NewOrder encoded with the binary codec is queued and reported as success;
a two-element queue whose first send succeeds and second fails flushes to
exactly the first message, with the second back at the head. -/
theorem c8_witness :
    (CodecRouter.encode (.newOrder "AAPL" 1 2 .buy 150 100) .binary).success = true ∧
    ConnectionManager.sendOrder (.newOrder "AAPL" 1 2 .buy 150 100) .binary none true [] =
      (⟨true, none⟩,
        [] ++ [(CodecRouter.encode (.newOrder "AAPL" 1 2 .buy 150 100) .binary).data]) ∧
    ConnectionManager.flushMessageQueue (fun i => i = 0) [[1], [2]] =
      ([[1], [2]].take 1, [[1], [2]].drop 1) :=
  ⟨by decide,
    c8_send_queueing_flush.1 (.newOrder "AAPL" 1 2 .buy 150 100) .binary none true []
      (by decide) (Or.inl rfl) (by decide),
    c8_send_queueing_flush.2.2.2 (fun i => i = 0) [[1], [2]] 1 (by decide) (by decide)
      (fun i hi => by simp; omega) (by decide)⟩

/-- C6 witness: a concrete out-of-order step (previous 3, new 6) adds
max(6-3-1, 1) = 2 to the counter, and overwrites lastSequence. -/
theorem c6_witness :
    8 ≤ (MulticastRelay.u64be 6).length ∧
    (MulticastRelay.checkSequence ⟨3, 0⟩ (MulticastRelay.u64be 6)).sequenceGaps =
      0 + (max ((MulticastRelay.readU64BE (MulticastRelay.u64be 6) : Int) - 3 - 1) 1).toNat ∧
    (MulticastRelay.checkSequence ⟨3, 0⟩ (MulticastRelay.u64be 6)).lastSequence =
      MulticastRelay.readU64BE (MulticastRelay.u64be 6) :=
  ⟨by decide,
    c6_gap_detector.2.1 ⟨3, 0⟩ (MulticastRelay.u64be 6) (by decide) (by decide)
      (by decide) (by decide),
    c6_gap_detector.2.2 ⟨3, 0⟩ (MulticastRelay.u64be 6) (by decide)⟩

theorem ackOk_none : AckOk none := by
  intro sym oid status h
  simp at h

theorem ackOk_decodeAck_bin (data : List Nat) :
    AckOk (BinaryCodec.decodeAck data).message := by
  intro sym oid status h
  simp [BinaryCodec.decodeAck] at h
  exact h.2.2.symm

theorem ackOk_decodeTrade_bin (data : List Nat) :
    AckOk (BinaryCodec.decodeTrade data).message := by
  intro sym oid status h
  simp [BinaryCodec.decodeTrade] at h

theorem ackOk_decodeReject_bin (data : List Nat) :
    AckOk (BinaryCodec.decodeReject data).message := by
  intro sym oid status h
  simp [BinaryCodec.decodeReject] at h

theorem ackOk_decodeCancelAck_bin (data : List Nat) :
    AckOk (BinaryCodec.decodeCancelAck data).message := by
  intro sym oid status h
  simp [BinaryCodec.decodeCancelAck] at h

theorem ackOk_decodeTopOfBook_bin (data : List Nat) :
    AckOk (BinaryCodec.decodeTopOfBook data).message := by
  intro sym oid status h
  unfold BinaryCodec.decodeTopOfBook at h
  dsimp only at h
  split at h
  · simp at h
  · split at h
    · simp at h
    · simp at h

set_option maxHeartbeats 2000000 in
theorem binary_decode_ackOk (data : List Nat) :
    AckOk (BinaryCodec.decode data).message := by
  unfold BinaryCodec.decode
  dsimp only
  repeat' split
  all_goals
    first
      | exact ackOk_decodeAck_bin data
      | exact ackOk_decodeTrade_bin data
      | exact ackOk_decodeReject_bin data
      | exact ackOk_decodeCancelAck_bin data
      | exact ackOk_decodeTopOfBook_bin data
      | exact ackOk_none

theorem ackOk_decodeAck_csv (fields : List String) :
    AckOk (CsvCodec.decodeAck fields).message := by
  intro sym oid status h
  unfold CsvCodec.decodeAck at h
  dsimp only at h
  repeat' split at h
  all_goals simp_all

theorem ackOk_decodeTrade_csv (fields : List String) :
    AckOk (CsvCodec.decodeTrade fields).message := by
  intro sym oid status h
  unfold CsvCodec.decodeTrade at h
  dsimp only at h
  repeat' split at h
  all_goals simp_all

theorem ackOk_decodeReject_csv (fields : List String) :
    AckOk (CsvCodec.decodeReject fields).message := by
  intro sym oid status h
  unfold CsvCodec.decodeReject at h
  dsimp only at h
  repeat' split at h
  all_goals simp_all

theorem ackOk_decodeCancelAck_csv (fields : List String) :
    AckOk (CsvCodec.decodeCancelAck fields).message := by
  intro sym oid status h
  unfold CsvCodec.decodeCancelAck at h
  dsimp only at h
  repeat' split at h
  all_goals simp_all

theorem ackOk_decodeTopOfBook_csv (fields : List String) :
    AckOk (CsvCodec.decodeTopOfBook fields).message := by
  intro sym oid status h
  unfold CsvCodec.decodeTopOfBook at h
  dsimp only at h
  repeat' split at h
  all_goals simp_all

set_option maxHeartbeats 2000000 in
theorem csv_decode_ackOk (line : String) :
    AckOk (CsvCodec.decode line).message := by
  unfold CsvCodec.decode
  dsimp only
  repeat' split
  all_goals
    first
      | exact ackOk_decodeAck_csv _
      | exact ackOk_decodeTrade_csv _
      | exact ackOk_decodeReject_csv _
      | exact ackOk_decodeCancelAck_csv _
      | exact ackOk_decodeTopOfBook_csv _
      | exact ackOk_none

/-- C10: every successfully decoded Ack message — through the binary
decoder or the CSV decoder — carries status ACCEPTED: neither decoder
derives the status from the wire bytes, so no decoded Ack ever carries
PARTIAL_FILL or FILLED, whatever the input buffer or line. -/
theorem c10_ack_status_always_accepted :
    (∀ (data : List Nat) (sym : String) (oid : Int) (status : Protocol.AckStatus),
      (BinaryCodec.decode data).message = some (.ack sym oid status) →
      status = .accepted)
  ∧ (∀ (line sym : String) (oid : Int) (status : Protocol.AckStatus),
      (CsvCodec.decode line).message = some (.ack sym oid status) →
      status = .accepted) :=
  ⟨fun data sym oid status h => binary_decode_ackOk data sym oid status h,
   fun line sym oid status h => csv_decode_ackOk line sym oid status h⟩

/-- C10 witness: a concrete binary Ack buffer and CSV Ack line each decode
to an Ack, and the theorem applied there yields status ACCEPTED. -/
theorem c10_witness :
    (BinaryCodec.decode c10AckBuf).message = some (.ack "AAPL" 7 .accepted) ∧
    (CsvCodec.decode "A,AAPL,1,7\n").message = some (.ack "AAPL" 7 .accepted) ∧
    Protocol.AckStatus.accepted = Protocol.AckStatus.accepted ∧
    Protocol.AckStatus.accepted = Protocol.AckStatus.accepted :=
  ⟨by decide, by decide,
    c10_ack_status_always_accepted.1 c10AckBuf "AAPL" 7 .accepted (by decide),
    c10_ack_status_always_accepted.2 "A,AAPL,1,7\n" "AAPL" 7 .accepted (by decide)⟩

theorem addClientGo_isSome (id : Nat) :
    ∀ slots : List (Option Nat),
      (TcpRelay.addClientGo id slots).isSome = true ↔ none ∈ slots := by
  intro slots
  induction slots with
  | nil => simp [TcpRelay.addClientGo]
  | cons hd rest ih =>
    cases hd with
    | none => simp [TcpRelay.addClientGo]
    | some c => simp [TcpRelay.addClientGo, ih]

theorem addClient_isSome_iff (st : TcpRelay.ClientTable) :
    (TcpRelay.addClient st).1.isSome = true ↔ none ∈ st.slots := by
  rw [← addClientGo_isSome st.clientIdCounter st.slots]
  unfold TcpRelay.addClient
  rcases hgo : TcpRelay.addClientGo st.clientIdCounter st.slots with _ | slots' <;>
    simp

theorem addClient_success (st : TcpRelay.ClientTable) (id : Nat)
    (st' : TcpRelay.ClientTable) (h : TcpRelay.addClient st = (some id, st')) :
    id = st.clientIdCounter ∧ st'.clientIdCounter = st.clientIdCounter + 1 := by
  unfold TcpRelay.addClient at h
  rcases hgo : TcpRelay.addClientGo st.clientIdCounter st.slots with _ | slots' <;>
    rw [hgo] at h <;> simp only [Prod.mk.injEq] at h
  · exact absurd h.1 (by simp)
  · obtain ⟨h1, h2⟩ := h
    subst h2
    exact ⟨(Option.some.inj h1).symm, rfl⟩

theorem addClient_fail (st : TcpRelay.ClientTable)
    (st' : TcpRelay.ClientTable) (h : TcpRelay.addClient st = (none, st')) :
    st' = st := by
  unfold TcpRelay.addClient at h
  rcases hgo : TcpRelay.addClientGo st.clientIdCounter st.slots with _ | slots' <;>
    rw [hgo] at h <;> simp only [Prod.mk.injEq] at h
  · exact h.2.symm
  · exact absurd h.1 (by simp)

theorem addClient_fst_eq (st : TcpRelay.ClientTable) :
    (TcpRelay.addClient st).1 = none ∨
      (TcpRelay.addClient st).1 = some st.clientIdCounter := by
  unfold TcpRelay.addClient
  rcases hgo : TcpRelay.addClientGo st.clientIdCounter st.slots with _ | slots' <;> simp

theorem removeClientGo_countP (id : Nat) :
    ∀ slots : List (Option Nat), some id ∈ slots →
      (TcpRelay.removeClientGo id slots).countP Option.isSome + 1 =
        slots.countP Option.isSome := by
  intro slots
  induction slots with
  | nil => intro h; simp at h
  | cons hd rest ih =>
    intro hmem
    cases hd with
    | none =>
      have : some id ∈ rest := by simpa using hmem
      simp [TcpRelay.removeClientGo, List.countP_cons, ih this]
    | some c =>
      by_cases hc : c = id
      · subst hc
        simp [TcpRelay.removeClientGo, List.countP_cons]
      · have : some id ∈ rest := by
          rcases List.mem_cons.mp hmem with h | h
          · exact absurd (Option.some.inj h).symm hc
          · exact h
        simp [TcpRelay.removeClientGo, hc, List.countP_cons, ← ih this]

theorem removeClientGo_mem_none (id : Nat) :
    ∀ slots : List (Option Nat), some id ∈ slots →
      none ∈ TcpRelay.removeClientGo id slots := by
  intro slots
  induction slots with
  | nil => intro h; simp at h
  | cons hd rest ih =>
    intro hmem
    cases hd with
    | none => simp [TcpRelay.removeClientGo]
    | some c =>
      by_cases hc : c = id
      · subst hc; simp [TcpRelay.removeClientGo]
      · have : some id ∈ rest := by
          rcases List.mem_cons.mp hmem with h | h
          · exact absurd (Option.some.inj h).symm hc
          · exact h
        simp [TcpRelay.removeClientGo, hc, ih this]

theorem assignedIds_lb :
    ∀ (ops : List TcpRelay.RelayOp) (st : TcpRelay.ClientTable),
      ∀ i ∈ TcpRelay.assignedIds st ops, st.clientIdCounter ≤ i := by
  intro ops
  induction ops with
  | nil => intro st i hi; simp [TcpRelay.assignedIds] at hi
  | cons op rest ih =>
    intro st i hi
    cases op with
    | accept =>
      unfold TcpRelay.assignedIds at hi
      rcases hadd : TcpRelay.addClient st with ⟨fst, st'⟩
      rw [hadd] at hi
      cases fst with
      | none =>
        dsimp only at hi
        rw [addClient_fail st st' hadd] at hi
        exact ih st i hi
      | some id2 =>
        dsimp only at hi
        obtain ⟨h1, h2⟩ := addClient_success st id2 st' hadd
        rcases List.mem_cons.mp hi with rfl | hi2
        · omega
        · have := ih st' i hi2
          omega
    | close cid =>
      unfold TcpRelay.assignedIds at hi
      exact ih (TcpRelay.removeClient cid st) i hi

theorem assignedIds_pairwise :
    ∀ (ops : List TcpRelay.RelayOp) (st : TcpRelay.ClientTable),
      List.Pairwise (· < ·) (TcpRelay.assignedIds st ops) := by
  intro ops
  induction ops with
  | nil => intro st; simp [TcpRelay.assignedIds]
  | cons op rest ih =>
    intro st
    cases op with
    | accept =>
      unfold TcpRelay.assignedIds
      rcases hadd : TcpRelay.addClient st with ⟨fst, st'⟩
      cases fst with
      | none => dsimp only; exact ih st'
      | some id2 =>
        dsimp only
        refine List.pairwise_cons.mpr ⟨?_, ih st'⟩
        intro j hj
        have hlb := assignedIds_lb rest st' j hj
        obtain ⟨h1, h2⟩ := addClient_success st id2 st' hadd
        omega
    | close cid =>
      unfold TcpRelay.assignedIds
      exact ih _

/-- C9: an accept succeeds exactly when some slot of the table is free;
with every slot occupied the connection is rejected with close code 1013
and the table is unchanged; concretely, 256 accepts from the empty table
all succeed (receiving ids 0..255), the 257th is rejected with close code
1013 while all 256 clients remain tracked; removing a tracked client frees
exactly one slot and a subsequent accept succeeds; and along any trace of
accepts and closes the assigned ids are strictly increasing — each new id
exceeds every previously assigned id, so ids are never reused. -/
theorem c9_client_table :
    (∀ st : TcpRelay.ClientTable,
      ((TcpRelay.addClient st).1.isSome = true ↔ none ∈ st.slots))
  ∧ (∀ st : TcpRelay.ClientTable, none ∉ st.slots →
      TcpRelay.handleWsConnection st = (.rejected 1013 "Max clients reached", st))
  ∧ (TcpRelay.assignedIds TcpRelay.initTable (List.replicate 256 .accept) =
        List.range 256 ∧
      (TcpRelay.handleWsConnection c9FullTable).1 =
        .rejected 1013 "Max clients reached" ∧
      (TcpRelay.handleWsConnection c9FullTable).2 = c9FullTable ∧
      TcpRelay.getClientCount c9FullTable = 256)
  ∧ (∀ (st : TcpRelay.ClientTable) (id : Nat), some id ∈ st.slots →
      TcpRelay.getClientCount (TcpRelay.removeClient id st) + 1 =
          TcpRelay.getClientCount st ∧
        (TcpRelay.addClient (TcpRelay.removeClient id st)).1 =
          some st.clientIdCounter)
  ∧ (∀ (st : TcpRelay.ClientTable) (ops : List TcpRelay.RelayOp),
      List.Pairwise (· < ·) (TcpRelay.assignedIds st ops)) := by
  refine ⟨addClient_isSome_iff, ?_, ⟨by decide, by decide, by decide, by decide⟩, ?_, ?_⟩
  · intro st hfree
    unfold TcpRelay.handleWsConnection
    rcases hadd : TcpRelay.addClient st with ⟨fst, st'⟩
    cases fst with
    | none => simp [addClient_fail st st' hadd]
    | some id =>
      exfalso
      exact hfree ((addClient_isSome_iff st).mp (by rw [hadd]; rfl))
  · intro st id hmem
    refine ⟨removeClientGo_countP id st.slots hmem, ?_⟩
    have hfree : none ∈ (TcpRelay.removeClient id st).slots :=
      removeClientGo_mem_none id st.slots hmem
    have hsome := (addClient_isSome_iff (TcpRelay.removeClient id st)).mpr hfree
    rcases addClient_fst_eq (TcpRelay.removeClient id st) with h | h
    · rw [h] at hsome; simp at hsome
    · exact h
  · intro st ops
    exact assignedIds_pairwise ops st

/-- C9 witness: a full single-slot table rejects with close code 1013 and
stays unchanged, and removing the tracked client of a table frees exactly
one slot after which the accept succeeds with the current counter id. -/
theorem c9_witness :
    (none ∉ ([some 0] : List (Option Nat))) ∧
    TcpRelay.handleWsConnection ⟨[some 0], 1⟩ =
      (.rejected 1013 "Max clients reached", ⟨[some 0], 1⟩) ∧
    (some 5 ∈ ([some 5, none] : List (Option Nat))) ∧
    (TcpRelay.getClientCount (TcpRelay.removeClient 5 ⟨[some 5, none], 6⟩) + 1 =
        TcpRelay.getClientCount ⟨[some 5, none], 6⟩ ∧
      (TcpRelay.addClient (TcpRelay.removeClient 5 ⟨[some 5, none], 6⟩)).1 = some 6) :=
  ⟨by decide, c9_client_table.2.1 ⟨[some 0], 1⟩ (by decide), by decide,
    c9_client_table.2.2.2.1 ⟨[some 5, none], 6⟩ 5 (by decide)⟩

theorem stringToBytes_roundtrip (s : String) :
    CodecRouter.bytesToString (CodecRouter.stringToBytes s) = s := by
  simp [CodecRouter.bytesToString, CodecRouter.stringToBytes, List.map_map,
    Function.comp_def, Char.ofNat_toNat]

theorem goSplit_some_prefix :
    ∀ (rest : List Char) (cur : List Char) (acc out : List (List Char)),
      CsvCodec.goSplit rest cur acc = some out → ∃ tl, out = acc ++ tl := by
  intro rest
  induction rest with
  | nil =>
    intro cur acc out h
    unfold CsvCodec.goSplit at h
    by_cases hguard : acc.length ≥ CsvCodec.MAX_CSV_FIELDS
    · rw [if_pos hguard] at h; simp at h
    · rw [if_neg hguard] at h
      dsimp only at h
      exact ⟨[CsvCodec.trimField cur.reverse], (Option.some.inj h).symm⟩
  | cons c rs ih =>
    intro cur acc out h
    unfold CsvCodec.goSplit at h
    by_cases hguard : acc.length ≥ CsvCodec.MAX_CSV_FIELDS
    · rw [if_pos hguard] at h; simp at h
    · rw [if_neg hguard] at h
      dsimp only at h
      by_cases hcomma : c = ','
      · rw [if_pos hcomma] at h
        obtain ⟨tl, htl⟩ := ih [] (acc ++ [CsvCodec.trimField cur.reverse]) out h
        exact ⟨CsvCodec.trimField cur.reverse :: tl, by simpa [List.append_assoc] using htl⟩
      · rw [if_neg hcomma] at h
        by_cases hnl : c = '\n'
        · rw [if_pos hnl] at h
          exact ⟨[CsvCodec.trimField cur.reverse], (Option.some.inj h).symm⟩
        · rw [if_neg hnl] at h
          exact ih (c :: cur) acc out h

theorem splitFields_startN (rest : List Char) :
    CsvCodec.splitFields ('N' :: ',' :: rest) =
      CsvCodec.goSplit (rest.take 254) [] [['N']] := by
  rfl

theorem splitFields_startC (rest : List Char) :
    CsvCodec.splitFields ('C' :: ',' :: rest) =
      CsvCodec.goSplit (rest.take 254) [] [['C']] := by
  rfl

theorem csvDecode_startN (line : String) (rest : List Char)
    (hdata : line.data = 'N' :: ',' :: rest) :
    (CsvCodec.decode line).success = false := by
  have hlen0 : ¬ line.length = 0 := by
    rw [String.length, hdata]; simp
  unfold CsvCodec.decode
  rw [if_neg hlen0]
  split
  · rfl
  · rw [hdata, splitFields_startN]
    rcases hsp : CsvCodec.goSplit (rest.take 254) [] [['N']] with _ | out
    · rfl
    · obtain ⟨tl, rfl⟩ := goSplit_some_prefix _ _ _ _ hsp
      have hmt : ((([['N']] ++ tl)).map String.mk).getD 0 "" = "N" := by simp
      dsimp only
      rw [if_neg (by simp), hmt, if_neg (by decide), if_neg (by decide),
        if_neg (by decide), if_neg (by decide), if_neg (by decide)]

theorem decodeCancelAck_shape (fields : List String) :
    (CsvCodec.decodeCancelAck fields).success = false ∨
      ∃ sym oid, (CsvCodec.decodeCancelAck fields).message =
        some (.cancelAck sym oid) := by
  unfold CsvCodec.decodeCancelAck
  dsimp only
  repeat' split
  all_goals simp

theorem csvDecode_startC (line : String) (rest : List Char)
    (hdata : line.data = 'C' :: ',' :: rest) :
    (CsvCodec.decode line).success = false ∨
      ∃ sym oid, (CsvCodec.decode line).message = some (.cancelAck sym oid) := by
  have hlen0 : ¬ line.length = 0 := by
    rw [String.length, hdata]; simp
  unfold CsvCodec.decode
  rw [if_neg hlen0]
  split
  · exact Or.inl rfl
  · rw [hdata, splitFields_startC]
    rcases hsp : CsvCodec.goSplit (rest.take 254) [] [['C']] with _ | out
    · exact Or.inl rfl
    · obtain ⟨tl, rfl⟩ := goSplit_some_prefix _ _ _ _ hsp
      have hmt : ((([['C']] ++ tl)).map String.mk).getD 0 "" = "C" := by simp
      dsimp only
      rw [if_neg (by simp), hmt, if_neg (by decide), if_neg (by decide),
        if_neg (by decide), if_neg (by decide), if_pos (by decide)]
      exact decodeCancelAck_shape _

theorem u32be_length (n : Nat) : (BinaryCodec.u32be n).length = 4 := rfl

theorem writeU32Big_length (v : Int) : (BinaryCodec.writeU32Big v).length = 4 := rfl

theorem writeSymbol_length (s : String) : (BinaryCodec.writeSymbol s).length = 8 := by
  simp [BinaryCodec.writeSymbol, Protocol.SYMBOL_SIZE]
  omega

theorem decodeAuto_short_binary (data : List Nat) (hhead : data.getD 0 0 = 0x4d)
    (hne : data.length ≠ 0) (hlen : data.length < 64) :
    (CodecRouter.decode data).success = false := by
  unfold CodecRouter.decode
  rw [if_neg hne]
  have hdet : CodecRouter.detectCodec data = ⟨.binary, .high⟩ := by
    unfold CodecRouter.detectCodec
    rw [if_neg hne]
    have hh : data[0]?.getD 0 = 77 := by simpa using hhead
    simp [BinaryCodec.isBinaryMessage, BinaryCodec.MAGIC, hh]
  rw [hdet]
  dsimp only
  rw [if_pos rfl]
  unfold CodecRouter.decodeBinary
  rw [if_pos (by simpa [Protocol.BINARY_MESSAGE_SIZE] using hlen)]

theorem decodeAuto_routes_csv (line : String) (c : Char) (rest : List Char)
    (hdata : line.data = c :: rest)
    (hbin : BinaryCodec.isBinaryMessage c.toNat = false)
    (hcsv : CsvCodec.isCsvMessage c.toNat = true) :
    CodecRouter.decode (CodecRouter.stringToBytes line) =
      ⟨(CsvCodec.decode line).success, (CsvCodec.decode line).message, .csv,
        (CsvCodec.decode line).error⟩ := by
  have hbytes : CodecRouter.stringToBytes line = c.toNat :: rest.map Char.toNat := by
    simp [CodecRouter.stringToBytes, hdata]
  have hne : (CodecRouter.stringToBytes line).length ≠ 0 := by
    rw [hbytes]; simp
  have hdet : CodecRouter.detectCodec (CodecRouter.stringToBytes line) =
      ⟨.csv, .high⟩ := by
    unfold CodecRouter.detectCodec
    rw [if_neg hne]
    dsimp only
    have hh : (CodecRouter.stringToBytes line)[0]?.getD 0 = c.toNat := by
      rw [hbytes]; simp
    simp [hh, hbin, hcsv]
  unfold CodecRouter.decode
  rw [if_neg hne, hdet]
  dsimp only
  rw [if_neg (by decide), if_pos rfl]
  unfold CodecRouter.decodeCsv
  rw [stringToBytes_roundtrip]

set_option maxHeartbeats 1000000 in
/-- C1 (amended): the round-trip law fails — for every valid input
message m, decode(encode(m, c)) never yields m.  With the binary codec the
encode succeeds (27/18/2 bytes) but the auto-detecting decode rejects the
buffer as shorter than its 64-byte binary minimum; with the CSV codec the
encode of a NewOrder succeeds but the decode fails (the CSV decoder
handles only output message tags, so tag N is an unknown message type),
the encode of a Flush fails outright (no CSV representation), and the
encode of a Cancel succeeds but its decode either fails or misreads the
line as a CANCEL_ACK output message — never the original Cancel. -/
theorem c1_roundtrip_never_recovers_input :
    ∀ m : Protocol.InputMessage, ValidInput m →
      ((CodecRouter.encode m .binary).success = true ∧
        (CodecRouter.decode (CodecRouter.encode m .binary).data).success = false) ∧
      (match m with
       | .newOrder _ _ _ _ _ _ =>
           (CodecRouter.encode m .csv).success = true ∧
           (CodecRouter.decode (CodecRouter.encode m .csv).data).success = false
       | .cancel _ _ _ =>
           (CodecRouter.encode m .csv).success = true ∧
           ((CodecRouter.decode (CodecRouter.encode m .csv).data).success = false ∨
             ∃ sym oid,
               (CodecRouter.decode (CodecRouter.encode m .csv).data).message =
                 some (.cancelAck sym oid))
       | .flush _ => (CodecRouter.encode m .csv).success = false) := by
  intro m hv
  cases m with
  | newOrder s u o sd p q =>
    obtain ⟨h1, h2, h3, h4, h5⟩ := hv
    have henc : BinaryCodec.encodeNewOrder s u o sd p q =
        ⟨true,
          [BinaryCodec.MAGIC, BinaryCodec.MSG_NEW_ORDER] ++ BinaryCodec.writeU32Big u ++
            BinaryCodec.writeSymbol s ++ BinaryCodec.writeU32Big ⌊p * 100 + 1/2⌋ ++
            BinaryCodec.writeU32Big q ++ [BinaryCodec.sideToWire sd] ++
            BinaryCodec.writeU32Big o,
          none⟩ := by
      unfold BinaryCodec.encodeNewOrder
      rw [if_neg (by simp [h1]), if_neg (by simp [h2]), if_neg (by simp [h3]),
          if_neg (by simp [h4]), if_neg (by simp [h5])]
    have hbdata : (CodecRouter.encode (.newOrder s u o sd p q) .binary).data =
        [BinaryCodec.MAGIC, BinaryCodec.MSG_NEW_ORDER] ++ BinaryCodec.writeU32Big u ++
          BinaryCodec.writeSymbol s ++ BinaryCodec.writeU32Big ⌊p * 100 + 1/2⌋ ++
          BinaryCodec.writeU32Big q ++ [BinaryCodec.sideToWire sd] ++
          BinaryCodec.writeU32Big o := by
      simp only [CodecRouter.encode, BinaryCodec.encode, henc]
    have hblen : ((CodecRouter.encode (.newOrder s u o sd p q) .binary).data).length = 27 := by
      rw [hbdata]
      simp [writeU32Big_length, writeSymbol_length]
    have hcenc : CsvCodec.encodeNewOrder s u o sd p q =
        ⟨true,
          "N" ++ "," ++ s ++ "," ++ toString u ++ "," ++ toString o ++ "," ++
            String.singleton (CsvCodec.sideToChar sd) ++ "," ++ CsvCodec.numToString p ++
            "," ++ toString q ++ "\n",
          none⟩ := by
      unfold CsvCodec.encodeNewOrder
      rw [if_neg (by simp [h1]), if_neg (by simp [h2]), if_neg (by simp [h3]),
          if_neg (by simp [h4]), if_neg (by simp [h5])]
    have hcrouter : CodecRouter.encode (.newOrder s u o sd p q) .csv =
        ⟨true,
          CodecRouter.stringToBytes
            ("N" ++ "," ++ s ++ "," ++ toString u ++ "," ++ toString o ++ "," ++
              String.singleton (CsvCodec.sideToChar sd) ++ "," ++ CsvCodec.numToString p ++
              "," ++ toString q ++ "\n"),
          none⟩ := by
      simp only [CodecRouter.encode, CsvCodec.encode, hcenc]
      rfl
    refine ⟨⟨?_, ?_⟩, ?_, ?_⟩
    · simp only [CodecRouter.encode, BinaryCodec.encode, henc]
    · refine decodeAuto_short_binary _ ?_ ?_ ?_
      · rw [hbdata]; rfl
      · rw [hblen]; decide
      · rw [hblen]; decide
    · rw [hcrouter]
    · rw [hcrouter]
      have hrest :
          ("N" ++ "," ++ s ++ "," ++ toString u ++ "," ++ toString o ++ "," ++
              String.singleton (CsvCodec.sideToChar sd) ++ "," ++ CsvCodec.numToString p ++
              "," ++ toString q ++ "\n").data =
            'N' :: ',' ::
              (s.data ++ ',' :: ((toString u).data ++ ',' :: ((toString o).data ++
                ',' :: CsvCodec.sideToChar sd :: ',' :: ((CsvCodec.numToString p).data ++
                  ',' :: ((toString q).data ++ ['\n']))))) := by
        simp [String.data_append]
      rw [decodeAuto_routes_csv _ 'N' _ hrest (by decide) (by decide)]
      exact csvDecode_startN _ _ hrest
  | cancel s u o =>
    obtain ⟨h1, h2, h3⟩ := hv
    have henc : BinaryCodec.encodeCancel s u o =
        ⟨true,
          [BinaryCodec.MAGIC, BinaryCodec.MSG_CANCEL] ++ BinaryCodec.writeU32Big u ++
            BinaryCodec.writeSymbol s ++ BinaryCodec.writeU32Big o,
          none⟩ := by
      unfold BinaryCodec.encodeCancel
      rw [if_neg (by simp [h1]), if_neg (by simp [h2]), if_neg (by simp [h3])]
    have hbdata : (CodecRouter.encode (.cancel s u o) .binary).data =
        [BinaryCodec.MAGIC, BinaryCodec.MSG_CANCEL] ++ BinaryCodec.writeU32Big u ++
          BinaryCodec.writeSymbol s ++ BinaryCodec.writeU32Big o := by
      simp only [CodecRouter.encode, BinaryCodec.encode, henc]
    have hblen : ((CodecRouter.encode (.cancel s u o) .binary).data).length = 18 := by
      rw [hbdata]
      simp [writeU32Big_length, writeSymbol_length]
    have hcenc : CsvCodec.encodeCancel s u o =
        ⟨true,
          "C" ++ "," ++ s ++ "," ++ toString u ++ "," ++ toString o ++ "\n",
          none⟩ := by
      unfold CsvCodec.encodeCancel
      rw [if_neg (by simp [h1]), if_neg (by simp [h2]), if_neg (by simp [h3])]
    have hcrouter : CodecRouter.encode (.cancel s u o) .csv =
        ⟨true,
          CodecRouter.stringToBytes
            ("C" ++ "," ++ s ++ "," ++ toString u ++ "," ++ toString o ++ "\n"),
          none⟩ := by
      simp only [CodecRouter.encode, CsvCodec.encode, hcenc]
      rfl
    refine ⟨⟨?_, ?_⟩, ?_, ?_⟩
    · simp only [CodecRouter.encode, BinaryCodec.encode, henc]
    · refine decodeAuto_short_binary _ ?_ ?_ ?_
      · rw [hbdata]; rfl
      · rw [hblen]; decide
      · rw [hblen]; decide
    · rw [hcrouter]
    · rw [hcrouter]
      have hrest :
          ("C" ++ "," ++ s ++ "," ++ toString u ++ "," ++ toString o ++ "\n").data =
            'C' :: ',' ::
              (s.data ++ ',' :: ((toString u).data ++ ',' :: ((toString o).data ++ ['\n']))) := by
        simp [String.data_append]
      rw [decodeAuto_routes_csv _ 'C' _ hrest (by decide) (by decide)]
      exact csvDecode_startC _ _ hrest
  | flush u =>
    refine ⟨⟨rfl, ?_⟩, rfl⟩
    have hdata : (CodecRouter.encode (.flush u) .binary).data = [77, 70] := rfl
    refine decodeAuto_short_binary _ ?_ ?_ ?_ <;> rw [hdata] <;> decide


/-- C1 counterexample: for the valid NewOrder (AAPL, 1001, 1, BUY, 150,
100) and the BINARY codec, encoding succeeds but the auto-detecting decode
of the encoded bytes fails — so decode(encode(m, c)) does not yield m. -/
theorem c1_counterexample :
    (CodecRouter.encode (.newOrder "AAPL" 1001 1 .buy 150 100) .binary).success = true ∧
    (CodecRouter.decode
      ((CodecRouter.encode (.newOrder "AAPL" 1001 1 .buy 150 100) .binary).data)).success =
      false := by
  refine ⟨by decide, by decide⟩

/-- C1 witness: the amended theorem applied to the concrete valid NewOrder
(AAPL, 1001, 1, BUY, 150, 100). -/
theorem c1_witness :
    ValidInput (.newOrder "AAPL" 1001 1 .buy 150 100) ∧
    (((CodecRouter.encode (.newOrder "AAPL" 1001 1 .buy 150 100) .binary).success = true ∧
      (CodecRouter.decode
        ((CodecRouter.encode (.newOrder "AAPL" 1001 1 .buy 150 100) .binary).data)).success =
        false) ∧
     ((CodecRouter.encode (.newOrder "AAPL" 1001 1 .buy 150 100) .csv).success = true ∧
      (CodecRouter.decode
        ((CodecRouter.encode (.newOrder "AAPL" 1001 1 .buy 150 100) .csv).data)).success =
        false)) :=
  ⟨by unfold ValidInput; decide,
    c1_roundtrip_never_recovers_input (.newOrder "AAPL" 1001 1 .buy 150 100)
      (by unfold ValidInput; decide)⟩

theorem u32be_len (n : Nat) : (TcpRelay.u32be n).length = 4 := rfl

theorem readU32BE_u32be_append (n : Nat) (xs : List Nat) (h : n < 4294967296) :
    TcpRelay.readU32BE (TcpRelay.u32be n ++ xs) = n := by
  simp [TcpRelay.readU32BE, TcpRelay.u32be]
  omega

theorem readU32BE_of_take (r : List Nat) (n : Nat) (h : r.take 4 = TcpRelay.u32be n)
    (hlt : n < 4294967296) : TcpRelay.readU32BE r = n := by
  conv_lhs => rw [← List.take_append_drop 4 r, h]
  exact readU32BE_u32be_append n (r.drop 4) hlt

theorem u32be_inj (n m : Nat) (hn : n < 4294967296) (hm : m < 4294967296)
    (h : TcpRelay.u32be n = TcpRelay.u32be m) : n = m := by
  have h1 := readU32BE_u32be_append n [] hn
  have h2 := readU32BE_u32be_append m [] hm
  rw [h] at h1
  rw [h1] at h2
  exact h2

theorem encodeFrame_len (p : List Nat) :
    (TcpRelay.encodeFrame p).length = 4 + p.length := by
  simp [TcpRelay.encodeFrame, TcpRelay.u32be]
  omega

theorem drop4_u32be (n : Nat) (xs : List Nat) :
    (TcpRelay.u32be n ++ xs).drop 4 = xs := rfl

theorem take4_u32be (n : Nat) (xs : List Nat) :
    (TcpRelay.u32be n ++ xs).take 4 = TcpRelay.u32be n := rfl

theorem stalled_not_short (r : List Nat) (n : Nat) (h : r.take 4 = TcpRelay.u32be n) :
    4 ≤ r.length := by
  have := congrArg List.length h
  simp [u32be_len] at this
  omega

theorem processTcp_stream :
    ∀ (ks : List (List Nat)) (r : List Nat) (fuel : Nat),
      (∀ p ∈ ks, p.length ≤ TcpRelay.MAX_MESSAGE_SIZE) → Stalled r →
      ks.length ≤ fuel →
      TcpRelay.processTcpBuffer fuel (TcpRelay.frameStream ks ++ r) = ⟨ks, [], r⟩ := by
  intro ks
  induction ks with
  | nil =>
    intro r fuel _ hst hf
    simp only [TcpRelay.frameStream, List.map_nil, List.flatten_nil, List.nil_append]
    cases fuel with
    | zero => rfl
    | succ f =>
      unfold TcpRelay.processTcpBuffer
      rcases hst with hlt | ⟨n, htake, hmax, hlen⟩
      · rw [if_pos (by simpa [TcpRelay.LENGTH_PREFIX_SIZE] using hlt)]
      · have h4 : 4 ≤ r.length := stalled_not_short r n htake
        have hn32 : n < 4294967296 := by
          simp [TcpRelay.MAX_MESSAGE_SIZE] at hmax
          omega
        have hread : TcpRelay.readU32BE r = n := readU32BE_of_take r n htake hn32
        rw [if_neg (by simp [TcpRelay.LENGTH_PREFIX_SIZE]; omega)]
        dsimp only
        rw [hread, if_neg (by omega), if_pos (by simpa [TcpRelay.LENGTH_PREFIX_SIZE] using hlen)]
  | cons p ks ih =>
    intro r fuel hval hst hf
    cases fuel with
    | zero => simp at hf
    | succ f =>
      have hplen : p.length ≤ TcpRelay.MAX_MESSAGE_SIZE := hval p (List.mem_cons_self p ks)
      have hp32 : p.length < 4294967296 := by
        simp [TcpRelay.MAX_MESSAGE_SIZE] at hplen
        omega
      have hshape : TcpRelay.frameStream (p :: ks) ++ r =
          TcpRelay.u32be p.length ++ (p ++ (TcpRelay.frameStream ks ++ r)) := by
        simp [TcpRelay.frameStream, TcpRelay.encodeFrame, List.append_assoc]
      rw [hshape]
      unfold TcpRelay.processTcpBuffer
      have hlen4 : ¬ (TcpRelay.u32be p.length ++ (p ++ (TcpRelay.frameStream ks ++ r))).length
          < TcpRelay.LENGTH_PREFIX_SIZE := by
        simp [TcpRelay.LENGTH_PREFIX_SIZE, u32be_len]
      rw [if_neg hlen4]
      dsimp only
      rw [readU32BE_u32be_append p.length _ hp32]
      rw [if_neg (by omega)]
      have htot : ¬ (TcpRelay.u32be p.length ++ (p ++ (TcpRelay.frameStream ks ++ r))).length
          < TcpRelay.LENGTH_PREFIX_SIZE + p.length := by
        simp [TcpRelay.LENGTH_PREFIX_SIZE, u32be_len]
      rw [if_neg htot]
      have hdrop4 : (TcpRelay.u32be p.length ++ (p ++ (TcpRelay.frameStream ks ++ r))).drop
          TcpRelay.LENGTH_PREFIX_SIZE = p ++ (TcpRelay.frameStream ks ++ r) := rfl
      have htakep : ((TcpRelay.u32be p.length ++ (p ++ (TcpRelay.frameStream ks ++ r))).drop
          TcpRelay.LENGTH_PREFIX_SIZE).take p.length = p := by
        rw [hdrop4]
        exact List.take_left p _
      have hdropt : (TcpRelay.u32be p.length ++ (p ++ (TcpRelay.frameStream ks ++ r))).drop
          (TcpRelay.LENGTH_PREFIX_SIZE + p.length) = TcpRelay.frameStream ks ++ r := by
        rw [← List.drop_drop, hdrop4]
        exact List.drop_left p _
      rw [htakep, hdropt,
        ih r f (fun q hq => hval q (List.mem_cons_of_mem p hq)) hst (by simpa using hf)]

theorem prefix_decomp :
    ∀ (fs : List (List Nat)), (∀ p ∈ fs, p.length ≤ TcpRelay.MAX_MESSAGE_SIZE) →
      ∀ (b t : List Nat), b ++ t = TcpRelay.frameStream fs →
      ∃ ks fs' r, fs = ks ++ fs' ∧ b = TcpRelay.frameStream ks ++ r ∧ Stalled r ∧
        r ++ t = TcpRelay.frameStream fs' := by
  intro fs
  induction fs with
  | nil =>
    intro _ b t h
    simp only [TcpRelay.frameStream, List.map_nil, List.flatten_nil] at h
    obtain ⟨rfl, rfl⟩ := List.append_eq_nil.mp h
    exact ⟨[], [], [], rfl, by simp [TcpRelay.frameStream], Or.inl (by simp),
      by simp [TcpRelay.frameStream]⟩
  | cons f fs ih =>
    intro hval b t h
    have hshape : TcpRelay.frameStream (f :: fs) =
        TcpRelay.encodeFrame f ++ TcpRelay.frameStream fs := by
      simp [TcpRelay.frameStream]
    rw [hshape] at h
    by_cases hble : (TcpRelay.encodeFrame f).length ≤ b.length
    · have htk : b.take (TcpRelay.encodeFrame f).length = TcpRelay.encodeFrame f := by
        have h1 := congrArg (List.take (TcpRelay.encodeFrame f).length) h
        rw [List.take_append_eq_append_take, List.take_left,
          Nat.sub_eq_zero_of_le hble, List.take_zero, List.append_nil] at h1
        exact h1
      have hb : b = TcpRelay.encodeFrame f ++ b.drop (TcpRelay.encodeFrame f).length := by
        conv_lhs => rw [← List.take_append_drop (TcpRelay.encodeFrame f).length b, htk]
      have h2 : b.drop (TcpRelay.encodeFrame f).length ++ t = TcpRelay.frameStream fs := by
        have h3 : TcpRelay.encodeFrame f ++ (b.drop (TcpRelay.encodeFrame f).length ++ t) =
            TcpRelay.encodeFrame f ++ TcpRelay.frameStream fs := by
          rw [← List.append_assoc, ← hb]
          exact h
        exact List.append_cancel_left h3
      obtain ⟨ks, fs', r, hks, hb2, hst, hrt⟩ :=
        ih (fun q hq => hval q (List.mem_cons_of_mem f hq)) _ t h2
      refine ⟨f :: ks, fs', r, by rw [hks, List.cons_append], ?_, hst, hrt⟩
      rw [hb, hb2]
      simp [TcpRelay.frameStream, List.append_assoc]
    · refine ⟨[], f :: fs, b, rfl, by simp [TcpRelay.frameStream], ?_, by rw [← hshape] at h; exact h⟩
      by_cases hb4 : b.length < 4
      · exact Or.inl hb4
      · refine Or.inr ⟨f.length, ?_, hval f (List.mem_cons_self f fs), ?_⟩
        · have h1 := congrArg (List.take 4) h
          rw [List.take_append_eq_append_take] at h1
          rw [Nat.sub_eq_zero_of_le (by omega), List.take_zero, List.append_nil] at h1
          rw [h1]
          have : TcpRelay.encodeFrame f ++ TcpRelay.frameStream fs =
              TcpRelay.u32be f.length ++ (f ++ TcpRelay.frameStream fs) := by
            simp [TcpRelay.encodeFrame, List.append_assoc]
          rw [this, take4_u32be]
        · have := encodeFrame_len f
          omega

theorem stalled_frameStream (fs : List (List Nat))
    (hval : ∀ p ∈ fs, p.length ≤ TcpRelay.MAX_MESSAGE_SIZE)
    (hst : Stalled (TcpRelay.frameStream fs)) : fs = [] := by
  cases fs with
  | nil => rfl
  | cons f fs2 =>
    exfalso
    have hshape : TcpRelay.frameStream (f :: fs2) =
        TcpRelay.u32be f.length ++ (f ++ TcpRelay.frameStream fs2) := by
      simp [TcpRelay.frameStream, TcpRelay.encodeFrame, List.append_assoc]
    have hlen : 4 + f.length ≤ (TcpRelay.frameStream (f :: fs2)).length := by
      rw [hshape]
      simp [u32be_len]
    have hf32 : f.length < 4294967296 := by
      have := hval f (List.mem_cons_self f fs2)
      simp [TcpRelay.MAX_MESSAGE_SIZE] at this
      omega
    rcases hst with h4 | ⟨n, htake, hmax, hlt⟩
    · omega
    · have hn32 : n < 4294967296 := by
        simp [TcpRelay.MAX_MESSAGE_SIZE] at hmax
        omega
      have htake2 : (TcpRelay.frameStream (f :: fs2)).take 4 = TcpRelay.u32be f.length := by
        rw [hshape, take4_u32be]
      rw [htake2] at htake
      have := u32be_inj f.length n hf32 hn32 htake
      omega

theorem runTcpFeedFrom_stream :
    ∀ (chunks : List (List Nat)) (fs : List (List Nat)) (r : List Nat),
      (∀ p ∈ fs, p.length ≤ TcpRelay.MAX_MESSAGE_SIZE) →
      fs.length ≤ TcpRelay.MAX_TCP_ITERATIONS → Stalled r →
      r ++ chunks.flatten = TcpRelay.frameStream fs →
      TcpRelay.runTcpFeedFrom r chunks = ⟨fs, [], []⟩ := by
  intro chunks
  induction chunks with
  | nil =>
    intro fs r hval hlen hst hrel
    simp only [List.flatten_nil, List.append_nil] at hrel
    subst hrel
    have := stalled_frameStream fs hval hst
    subst this
    rfl
  | cons c cs ih =>
    intro fs r hval hlen hst hrel
    have hb : (r ++ c) ++ cs.flatten = TcpRelay.frameStream fs := by
      rw [List.append_assoc]
      simpa [List.flatten_cons, List.append_assoc] using hrel
    obtain ⟨ks, fs', r', hks, hbdecomp, hst', hrt⟩ := prefix_decomp fs hval (r ++ c) cs.flatten hb
    have hkslen : ks.length ≤ TcpRelay.MAX_TCP_ITERATIONS := by
      have : fs.length = ks.length + fs'.length := by rw [hks]; simp
      omega
    have hprocess : TcpRelay.processTcpBuffer TcpRelay.MAX_TCP_ITERATIONS (r ++ c) =
        ⟨ks, [], r'⟩ := by
      rw [hbdecomp]
      exact processTcp_stream ks r' TcpRelay.MAX_TCP_ITERATIONS
        (fun q hq => hval q (by rw [hks]; exact List.mem_append_left fs' hq)) hst' hkslen
    have hrest : TcpRelay.runTcpFeedFrom r' cs = ⟨fs', [], []⟩ := by
      refine ih fs' r' (fun q hq => hval q (by rw [hks]; exact List.mem_append_right ks hq))
        ?_ hst' hrt
      have : fs.length = ks.length + fs'.length := by rw [hks]; simp
      omega
    unfold TcpRelay.runTcpFeedFrom
    rw [hprocess]
    dsimp only
    rw [hrest]
    simp [hks]

set_option maxHeartbeats 400000 in
/-- C4 (amended): provided the concatenated length-prefixed stream holds
at most 100 complete frames — so the 100-frames-per-call iteration cap of
processTcpBuffer never binds — feeding the stream to the reassembler in
any chunking whatsoever (one byte at a time included) broadcasts exactly
the frame payloads, in order, with no errors and an empty final buffer,
and therefore agrees with feeding the whole stream as one contiguous
chunk.  (With more than 100 frames the equivalence fails: a single
contiguous feed emits only the first 100 payloads and leaves the rest
buffered, while one-frame chunks emit them all — see the counterexample.) -/
theorem c4_chunking_invariance_bounded :
    ∀ (frames chunks : List (List Nat)),
      (∀ p ∈ frames, p.length ≤ TcpRelay.MAX_MESSAGE_SIZE) →
      frames.length ≤ 100 →
      chunks.flatten = TcpRelay.frameStream frames →
      TcpRelay.runTcpFeed chunks = ⟨frames, [], []⟩ ∧
      TcpRelay.runTcpFeed chunks = TcpRelay.runTcpFeed [chunks.flatten] := by
  intro frames chunks hval hlen hflat
  have h1 : TcpRelay.runTcpFeed chunks = ⟨frames, [], []⟩ :=
    runTcpFeedFrom_stream chunks frames [] hval hlen (Or.inl (by simp)) (by simpa using hflat)
  have h2 : TcpRelay.runTcpFeed [chunks.flatten] = ⟨frames, [], []⟩ :=
    runTcpFeedFrom_stream [chunks.flatten] frames [] hval hlen (Or.inl (by simp))
      (by simpa using hflat)
  exact ⟨h1, h1.trans h2.symm⟩

/-- C4 counterexample: the same 404-byte stream of 101 empty frames,
fed as 101 four-byte chunks versus one contiguous chunk, broadcasts 101
payloads versus only 100 (the per-call cap of 100 leaves the last frame
in the buffer), so the chunking-invariance claim fails as stated. -/
theorem c4_counterexample :
    (TcpRelay.runTcpFeed (List.replicate 101 [0, 0, 0, 0])).payloads.length = 101 ∧
    (TcpRelay.runTcpFeed [(List.replicate 101 ([0, 0, 0, 0] : List Nat)).flatten]).payloads.length
      = 100 ∧
    (TcpRelay.runTcpFeed (List.replicate 101 [0, 0, 0, 0])).payloads ≠
      (TcpRelay.runTcpFeed [(List.replicate 101 ([0, 0, 0, 0] : List Nat)).flatten]).payloads := by
  refine ⟨by decide, by decide, by decide⟩

/-- C4 witness: the amended theorem applied to two concrete frames fed one
byte at a time. -/
theorem c4_witness :
    ((∀ p ∈ [[1, 2], [3]], List.length p ≤ TcpRelay.MAX_MESSAGE_SIZE) ∧
      ([[1, 2], [3]] : List (List Nat)).length ≤ 100 ∧
      ([[0], [0], [0], [2], [1], [2], [0], [0], [0], [1], [3]] :
        List (List Nat)).flatten = TcpRelay.frameStream [[1, 2], [3]]) ∧
    (TcpRelay.runTcpFeed [[0], [0], [0], [2], [1], [2], [0], [0], [0], [1], [3]] =
        ⟨[[1, 2], [3]], [], []⟩ ∧
      TcpRelay.runTcpFeed [[0], [0], [0], [2], [1], [2], [0], [0], [0], [1], [3]] =
        TcpRelay.runTcpFeed
          [([[0], [0], [0], [2], [1], [2], [0], [0], [0], [1], [3]] :
            List (List Nat)).flatten]) :=
  ⟨⟨by decide, by decide, by decide⟩,
    c4_chunking_invariance_bounded [[1, 2], [3]]
      [[0], [0], [0], [2], [1], [2], [0], [0], [0], [1], [3]]
      (by decide) (by decide) (by decide)⟩
